import Mathlib

/-!
# PlotLab — formal verification of the core pipeline

Shallow embedding, in Lean 4, of the algorithmic core of the PlotLab
repository (a browser-based SVG → G-code converter for pen plotting):

* `PathOptimizer` (docs/js/pathOptimizer.js): greedy nearest-neighbour tour
  construction with optional 2-opt refinement, plus travel statistics;
* `SVGProcessor` (stroke merging, transform parsing, shape synthesis);
* `GCodeGenerator` (src/js/gcodeGenerator.js): motion-code emission;
* `GCodeValidator`: static checking of generated motion code;
* `SVGManager` (both the docs and the src variant): drawing collection and
  placement model.

JavaScript numbers are modelled as rationals (`ℚ`).  `Math.sqrt`/`Math.hypot`
are modelled by `ratSqrt`, a computable function that returns the exact
square root whenever the radicand is the square of a rational (every concrete
scenario below only takes square roots of perfect squares, where `ratSqrt`
coincides with the real square root).  Trigonometric functions (`Math.cos`,
`Math.sin` applied to `degrees · π / 180`, and the degree-valued
`acos`-composition used by the stroke merger) are modelled by abstract
function parameters `cosd sind acosDeg : ℚ → ℚ` taking the angle in degrees;
theorems that depend on particular trigonometric values carry the
corresponding hypotheses (e.g. `cosd 90 = 0`).
-/

/-- A 2-D point, as the JS arrays `[x, y]`. -/
abbrev Point : Type := ℚ × ℚ

/-- Model of `Math.sqrt` on rationals: for `q = (x/y)²` (reduced) it returns
exactly `x/y`; on other non-negative inputs it returns the floor of the
square root on the grid of the denominator (only the exact cases are relied
upon); on negative inputs (where `Math.sqrt` gives `NaN`, which never occurs
in the embedded code because every radicand is a sum of squares) it gives 0. -/
def ratSqrt (q : ℚ) : ℚ :=
  if 0 ≤ q then (Nat.sqrt (q.num.toNat * q.den) : ℚ) / (q.den : ℚ) else 0

theorem ratSqrt_sq_nonneg (x : ℚ) (hx : 0 ≤ x) : ratSqrt (x ^ 2) = x := by
  unfold ratSqrt
  rw [if_pos (by positivity)]
  have hxnum : 0 ≤ x.num := Rat.num_nonneg.mpr hx
  have hnum : (x ^ 2).num = x.num ^ 2 := by
    rw [pow_two, pow_two, Rat.mul_self_num]
  have hden : (x ^ 2).den = x.den ^ 2 := by
    rw [pow_two, pow_two, Rat.mul_self_den]
  have htoNat : (x.num * x.num).toNat = x.num.toNat * x.num.toNat := by
    conv_lhs => rw [← Int.toNat_of_nonneg hxnum]
    norm_cast
  have key : (x ^ 2).num.toNat * (x ^ 2).den = (x.num.toNat * x.den) ^ 2 := by
    rw [hnum, hden, mul_pow]
    congr 1
    rw [pow_two, pow_two, htoNat]
  rw [key, Nat.sqrt_eq', hden]
  have hcast : ((x.num.toNat : ℕ) : ℚ) = ((x.num : ℤ) : ℚ) := by
    exact_mod_cast Int.toNat_of_nonneg hxnum
  have hden0 : ((x.den : ℚ)) ≠ 0 := Nat.cast_ne_zero.mpr x.den_nz
  push_cast
  rw [hcast, pow_two, ← div_div, mul_div_cancel_right₀ _ hden0, Rat.num_div_den]

/-! ## PathOptimizer (docs/js/pathOptimizer.js)

`optimize` builds segment metadata for every polyline, runs the greedy
nearest-neighbour construction and, when 2-opt is enabled and the tour has
fewer than 100 segments, returns `_twoOptImprovement(optimized, startPoint)`
directly — an array of segment records, not of polylines.  The embedding
makes the two possible result shapes explicit with a sum type. -/

namespace PathOptimizer

/-- The segment metadata records built at the top of `optimize`
(`{index, polyline, start, end, reversed}`); `end` is a Lean keyword, so the
field is called `endp`. -/
structure Segment where
  index : ℕ
  polyline : List Point
  start : Point
  endp : Point
  reversed : Bool
deriving DecidableEq, Repr

/-- `PathOptimizer._distance`: Euclidean distance (via `ratSqrt`). -/
def distance (p1 p2 : Point) : ℚ :=
  ratSqrt ((p2.1 - p1.1) ^ 2 + (p2.2 - p1.2) ^ 2)

/-- `d < bestDistance`, where `bestDistance` is `Infinity` (`none`) or a
rational: every (real) candidate distance is below `Infinity`. -/
def ltBest (d : ℚ) : Option ℚ → Bool
  | none => true
  | some b => d < b

/-- The inner `for` loop of `_greedyNearestNeighbor`: scanning `remaining`
from index `i` with accumulator `(bestIndex, bestDistance, bestReversed)`
(initially `(-1, Infinity, false)`, with `Infinity` modelled as `none`),
considering for each segment first the distance to its start, then the
distance to its end (the latter would require reversal), each replacing the
accumulator only on strict improvement. -/
def findBest (current : Point) : List Segment → ℕ → ℤ × Option ℚ × Bool →
    ℤ × Option ℚ × Bool
  | [], _, acc => acc
  | seg :: rest, i, acc =>
    let distToStart := distance current seg.start
    let acc1 := if ltBest distToStart acc.2.1 then
        ((i : ℤ), some distToStart, false) else acc
    let distToEnd := distance current seg.endp
    let acc2 := if ltBest distToEnd acc1.2.1 then
        ((i : ℤ), some distToEnd, true) else acc1
    findBest current rest (i + 1) acc2

/-- The `while (remaining.length > 0)` loop of `_greedyNearestNeighbor`.
Each pass removes exactly one segment, so the loop runs exactly
`remaining.length` times; the fuel parameter (instantiated with that length)
only serves Lean's termination checking. -/
def greedyGo : ℕ → List Segment → Point → List Segment
  | 0, _, _ => []
  | _ + 1, [], _ => []
  | n + 1, remaining@(_ :: _), currentPoint =>
    let best := findBest currentPoint remaining 0 (-1, none, false)
    match remaining.get? best.1.toNat with
    | none => []          -- unreachable: the scan of a non-empty list always selects a valid index
    | some seg =>
      let chosen : Segment := { seg with reversed := best.2.2 }
      let rest := remaining.eraseIdx best.1.toNat
      let nextPoint := if best.2.2 then chosen.start else chosen.endp
      chosen :: greedyGo n rest nextPoint

/-- `PathOptimizer._greedyNearestNeighbor`. -/
def greedyNearestNeighbor (segments : List Segment) (startPoint : Point) :
    List Segment :=
  greedyGo segments.length segments startPoint

/-- Effective entry point of a segment in the tour
(`seg.reversed ? seg.end : seg.start`). -/
def segStart (s : Segment) : Point := if s.reversed then s.endp else s.start

/-- Effective exit point of a segment in the tour
(`seg.reversed ? seg.start : seg.end`). -/
def segEnd (s : Segment) : Point := if s.reversed then s.start else s.endp

/-- The `for (k = i; k <= j; k++)` accumulation inside
`_getTourSegmentDistance`, over the sublist of visited segments. -/
def tourDistGo : List Segment → Point → ℚ
  | [], _ => 0
  | seg :: rest, currentPoint =>
    distance currentPoint (segStart seg) + tourDistGo rest (segEnd seg)

/-- `PathOptimizer._getTourSegmentDistance tour i j startPoint`. -/
def getTourSegmentDistance (tour : List Segment) (i j : ℕ)
    (startPoint : Point) : ℚ :=
  let currentPoint := if i = 0 then startPoint
    else match tour.get? (i - 1) with
      | some s => segEnd s
      | none => startPoint
  tourDistGo ((tour.drop i).take (j + 1 - i)) currentPoint

/-- The candidate tour built inside `_twoOptImprovement`:
`[...tour.slice(0, i+1), ...tour.slice(i+1, j+1).reverse(), ...tour.slice(j+1)]`. -/
def twoOptSwap (tour : List Segment) (i j : ℕ) : List Segment :=
  tour.take (i + 1) ++ ((tour.drop (i + 1)).take (j - i)).reverse ++
    tour.drop (j + 1)

/-- One `(i, j)` probe of the 2-opt double loop: build the swapped tour and
accept it when it improves the sub-tour distance by more than the 0.01 mm
threshold. -/
def tryImprove (tour : List Segment) (startPoint : Point) (i j : ℕ) :
    Option (List Segment) :=
  let currentDist := getTourSegmentDistance tour i j startPoint
  let newTour := twoOptSwap tour i j
  let newDist := getTourSegmentDistance newTour i j startPoint
  if newDist < currentDist - 1 / 100 then some newTour else none

/-- One full pass of the 2-opt double loop (`i` from `0` to `length - 2`,
`j` from `i + 2` to `length - 1`), stopping at the first improvement —
the code `break`s out of both loops as soon as one is found. -/
def findImprovement (tour : List Segment) (startPoint : Point) :
    Option (List Segment) :=
  (List.range (tour.length - 1)).findSome? fun i =>
    (List.range' (i + 2) (tour.length - (i + 2))).findSome? fun j =>
      tryImprove tour startPoint i j

/-- The `while (improved && iterations < maxIterations)` loop of
`_twoOptImprovement`: at most 100 improving passes. -/
def twoOptLoop : ℕ → List Segment → Point → List Segment
  | 0, tour, _ => tour
  | n + 1, tour, startPoint =>
    match findImprovement tour startPoint with
    | some t => twoOptLoop n t startPoint
    | none => tour

/-- `PathOptimizer._twoOptImprovement`. -/
def twoOptImprovement (segments : List Segment) (startPoint : Point) :
    List Segment :=
  if segments.length < 4 then segments
  else twoOptLoop 100 segments startPoint

/-- `PathOptimizer.optimize`.  The JS function returns either an array of
polylines (point arrays) or — on the `use2Opt && optimized.length < 100`
branch — the raw segment records produced by `_twoOptImprovement`; the sum
type records which shape was returned.  `polyline[0]` / `polyline[length-1]`
on an empty polyline would be `undefined` in JS; they are modelled with a
default of `(0, 0)` (all claims concern non-empty polylines). -/
def optimize (polylines : List (List Point)) (startPoint : Point)
    (use2Opt : Bool) : List (List Point) ⊕ List Segment :=
  if polylines.length ≤ 1 then Sum.inl polylines
  else
    let segments := polylines.enum.map fun p =>
      { index := p.1, polyline := p.2, start := p.2.headD (0, 0),
        endp := p.2.getLastD (0, 0), reversed := false : Segment }
    let optimized := greedyNearestNeighbor segments startPoint
    if use2Opt = true ∧ optimized.length < 100 then
      Sum.inr (twoOptImprovement optimized startPoint)
    else
      Sum.inl (optimized.map fun seg =>
        if seg.reversed then seg.polyline.reverse else seg.polyline)

/-- The polylines produced by `optimize` on the plain greedy path
(`use2Opt = false`), where the code always returns the mapped polylines. -/
def optimizeGreedy (polylines : List (List Point)) (startPoint : Point) :
    List (List Point) :=
  match optimize polylines startPoint false with
  | Sum.inl ps => ps
  | Sum.inr _ => []

/-- Pen-down length of one polyline (the inner `for` loop of
`calculateStats`). -/
def drawLen : List Point → ℚ
  | [] => 0
  | [_] => 0
  | p :: q :: rest => distance p q + drawLen (q :: rest)

/-- The per-polyline loop of `calculateStats`, returning
`(totalTravel, drawDistance)`. -/
def statsGo : List (List Point) → Point → ℚ × ℚ
  | [], _ => (0, 0)
  | pl :: rest, currentPoint =>
    if pl.length < 2 then statsGo rest currentPoint
    else
      let t := statsGo rest (pl.getLastD (0, 0))
      (distance currentPoint (pl.headD (0, 0)) + t.1, drawLen pl + t.2)

/-- The statistics record returned by `PathOptimizer.calculateStats`. -/
structure Stats where
  totalTravel : ℚ
  drawDistance : ℚ
  penMoves : ℕ
deriving DecidableEq, Repr

/-- `PathOptimizer.calculateStats`. -/
def calculateStats (polylines : List (List Point)) (startPoint : Point) :
    Stats :=
  let td := statsGo polylines startPoint
  { totalTravel := td.1, drawDistance := td.2, penMoves := polylines.length }

/-! ### Properties of the greedy scan -/

/-- `b ≤ d` for a best-distance accumulator `b`; `Infinity` (`none`) is not
below anything finite. -/
def bestLe : Option ℚ → ℚ → Prop
  | none, _ => False
  | some x, d => x ≤ d

/-- Order between two best-distance accumulators (`none` = `Infinity` on top). -/
def bestLeO : Option ℚ → Option ℚ → Prop
  | _, none => True
  | none, some _ => False
  | some a, some b => a ≤ b

theorem bestLeO_refl (b : Option ℚ) : bestLeO b b := by
  cases b <;> simp [bestLeO]

theorem bestLeO_trans {a b c : Option ℚ} (h1 : bestLeO a b) (h2 : bestLeO b c) :
    bestLeO a c := by
  cases a <;> cases b <;> cases c <;>
    simp_all [bestLeO] <;> exact le_trans h1 h2

theorem bestLe_mono {a b : Option ℚ} {d : ℚ} (h1 : bestLeO a b)
    (h2 : bestLe b d) : bestLe a d := by
  cases a <;> cases b <;> simp_all [bestLe, bestLeO] <;> exact le_trans h1 h2

theorem bestLeO_of_ltBest {d : ℚ} {b : Option ℚ} (h : ltBest d b = true) :
    bestLeO (some d) b := by
  cases b <;> simp_all [bestLeO, ltBest] <;> exact le_of_lt h

/-- One candidate update of the scan never increases the best distance. -/
theorem update_bestLeO (i : ℤ) (d : ℚ) (fl : Bool) (acc : ℤ × Option ℚ × Bool) :
    bestLeO (if ltBest d acc.2.1 then (i, some d, fl) else acc).2.1 acc.2.1 := by
  by_cases h : ltBest d acc.2.1
  · simpa [h] using bestLeO_of_ltBest h
  · simpa [h] using bestLeO_refl acc.2.1

/-- After a candidate update, the accumulator is at most the candidate. -/
theorem update_bestLe (i : ℤ) (d : ℚ) (fl : Bool) (acc : ℤ × Option ℚ × Bool) :
    bestLe (if ltBest d acc.2.1 then (i, some d, fl) else acc).2.1 d := by
  by_cases h : ltBest d acc.2.1
  · simp [h, bestLe]
  · rw [if_neg h]
    cases hb : acc.2.1 with
    | none => simp [ltBest, hb] at h
    | some b =>
      have hnlt : ¬ d < b := by simpa [ltBest, hb] using h
      show bestLe (some b) d
      exact le_of_not_lt hnlt

/-- The scan never increases the best distance. -/
theorem findBest_mono (cur : Point) :
    ∀ (rest : List Segment) (i : ℕ) (acc : ℤ × Option ℚ × Bool),
      bestLeO (findBest cur rest i acc).2.1 acc.2.1
  | [], _, acc => bestLeO_refl acc.2.1
  | seg :: rest, i, acc => by
    simp only [findBest]
    refine bestLeO_trans (findBest_mono cur rest (i + 1) _) ?_
    exact bestLeO_trans
      (update_bestLeO (i : ℤ) (distance cur seg.endp) true _)
      (update_bestLeO (i : ℤ) (distance cur seg.start) false acc)

/-- The scan result is at most every candidate distance of every scanned
segment (to its start and to its end). -/
theorem findBest_min (cur : Point) :
    ∀ (rest : List Segment) (i : ℕ) (acc : ℤ × Option ℚ × Bool),
      ∀ s ∈ rest,
        bestLe (findBest cur rest i acc).2.1 (distance cur s.start) ∧
        bestLe (findBest cur rest i acc).2.1 (distance cur s.endp)
  | [], _, _, s, hs => absurd hs (List.not_mem_nil s)
  | seg :: rest, i, acc, s, hs => by
    rcases List.mem_cons.mp hs with rfl | hmem
    · simp only [findBest]
      constructor
      · refine bestLe_mono (findBest_mono cur rest (i + 1) _) ?_
        refine bestLe_mono
          (update_bestLeO (i : ℤ) (distance cur s.endp) true _) ?_
        exact update_bestLe (i : ℤ) (distance cur s.start) false acc
      · refine bestLe_mono (findBest_mono cur rest (i + 1) _) ?_
        exact update_bestLe (i : ℤ) (distance cur s.endp) true _
    · simp only [findBest]
      exact findBest_min cur rest (i + 1) _ s hmem

/-- The scan either leaves the accumulator untouched or returns the index,
entry distance and orientation of one of the scanned segments. -/
theorem findBest_cases (cur : Point) :
    ∀ (rest : List Segment) (i : ℕ) (acc : ℤ × Option ℚ × Bool),
      findBest cur rest i acc = acc ∨
      ∃ k s br, rest.get? k = some s ∧
        findBest cur rest i acc =
          (((i : ℤ) + k),
            some (distance cur (if br then s.endp else s.start)), br)
  | [], _, acc => Or.inl rfl
  | seg :: rest, i, acc => by
    have step := findBest_cases cur rest (i + 1)
    simp only [findBest]
    set acc1 := if ltBest (distance cur seg.start) acc.2.1 then
      ((i : ℤ), some (distance cur seg.start), false) else acc with hacc1
    set acc2 := if ltBest (distance cur seg.endp) acc1.2.1 then
      ((i : ℤ), some (distance cur seg.endp), true) else acc1 with hacc2
    have hacc2cases : acc2 = acc ∨
        ∃ br : Bool, acc2 =
          ((i : ℤ), some (distance cur (if br then seg.endp else seg.start)), br) := by
      rw [hacc2, hacc1]
      by_cases h1 : ltBest (distance cur seg.start) acc.2.1 = true
      · rw [if_pos h1]
        by_cases h2 : ltBest (distance cur seg.endp)
            (((i : ℤ), some (distance cur seg.start), false) :
              ℤ × Option ℚ × Bool).2.1 = true
        · rw [if_pos h2]; exact Or.inr ⟨true, rfl⟩
        · rw [if_neg h2]; exact Or.inr ⟨false, rfl⟩
      · rw [if_neg h1]
        by_cases h2 : ltBest (distance cur seg.endp) acc.2.1 = true
        · rw [if_pos h2]; exact Or.inr ⟨true, rfl⟩
        · rw [if_neg h2]; exact Or.inl rfl
    rcases step acc2 with heq | ⟨k, s, br, hk, heq⟩
    · rw [heq]
      rcases hacc2cases with h | ⟨br, h⟩
      · exact Or.inl h
      · refine Or.inr ⟨0, seg, br, rfl, ?_⟩
        rw [h]; norm_num
    · refine Or.inr ⟨k + 1, s, br, by simpa using hk, ?_⟩
      rw [heq]
      congr 1
      push_cast
      ring

/-- Unfolding of one pass of the greedy `while` loop on a non-empty pool:
the selected index is valid, the selected segment is marked with the chosen
orientation, and its entry distance is minimal among all remaining
candidate entry points. -/
theorem greedyGo_step (n : ℕ) (rem : List Segment) (cur : Point)
    (hne : rem ≠ []) :
    ∃ k s br, rem.get? k = some s ∧
      greedyGo (n + 1) rem cur =
        { s with reversed := br } ::
          greedyGo n (rem.eraseIdx k) (if br then s.start else s.endp) ∧
      ∀ t ∈ rem,
        distance cur (if br then s.endp else s.start) ≤ distance cur t.start ∧
        distance cur (if br then s.endp else s.start) ≤ distance cur t.endp := by
  obtain ⟨t0, rest0, rfl⟩ := List.exists_cons_of_ne_nil hne
  rcases findBest_cases cur (t0 :: rest0) 0 (-1, none, false) with heq |
    ⟨k, s, br, hk, heq⟩
  · exfalso
    have := (findBest_min cur (t0 :: rest0) 0 (-1, none, false) t0
      (List.mem_cons_self t0 rest0)).1
    rw [heq] at this
    exact this
  · refine ⟨k, s, br, hk, ?_, ?_⟩
    · show greedyGo (n + 1) (t0 :: rest0) cur = _
      simp only [greedyGo, heq, Nat.cast_zero, zero_add, Int.toNat_natCast, hk]
    · intro t ht
      have hmin := findBest_min cur (t0 :: rest0) 0 (-1, none, false) t ht
      rw [heq] at hmin
      exact ⟨hmin.1, hmin.2⟩

/-- The greedy loop consumes exactly one segment per pass. -/
theorem greedyGo_length :
    ∀ (n : ℕ) (rem : List Segment) (cur : Point),
      (greedyGo n rem cur).length = min n rem.length
  | 0, rem, _ => by simp [greedyGo]
  | n + 1, [], _ => by simp [greedyGo]
  | n + 1, t0 :: rest0, cur => by
    obtain ⟨k, s, br, hk, heq, -⟩ :=
      greedyGo_step n (t0 :: rest0) cur (by simp)
    have hklt : k < (t0 :: rest0).length := (List.get?_eq_some.mp hk).1
    rw [heq, List.length_cons,
      greedyGo_length n ((t0 :: rest0).eraseIdx k)
        (if br then s.start else s.endp),
      List.length_eraseIdx_of_lt hklt]
    simp only [List.length_cons] at hklt ⊢
    omega

/-- `_greedyNearestNeighbor` returns a tour with one entry per input
segment. -/
theorem greedyNearestNeighbor_length (segments : List Segment)
    (startPoint : Point) :
    (greedyNearestNeighbor segments startPoint).length = segments.length := by
  rw [greedyNearestNeighbor, greedyGo_length]
  exact min_self _

/-- Exact-square-root evaluation helper for concrete distances. -/
theorem distance_eval (p q : Point) (r : ℚ) (h0 : 0 ≤ r)
    (h : (q.1 - p.1) ^ 2 + (q.2 - p.2) ^ 2 = r ^ 2) : distance p q = r := by
  unfold distance
  rw [h, ratSqrt_sq_nonneg r h0]

end PathOptimizer

namespace PathOptimizer

/-- C1: "Whenever optimize is called with 2-opt enabled on a list of between
4 and 99 polylines, its return value is a list of polylines (arrays of
points) in the chosen tour order, in which every polyline chosen for reverse
traversal appears with its point sequence actually inverted."  The code
violates this: on that branch `optimize` returns
`_twoOptImprovement(optimized, startPoint)` — the raw segment metadata
records — without ever mapping them back to (reversed) point arrays.  This
theorem evaluates the code on the claim's whole input range: the result is
always of the segment-record shape (`Sum.inr`), never a list of polylines. -/
theorem optimize_use2Opt_returns_segment_records
    (polylines : List (List Point)) (startPoint : Point)
    (h4 : 4 ≤ polylines.length) (h99 : polylines.length ≤ 99) :
    ∃ segs, optimize polylines startPoint true = Sum.inr segs := by
  simp only [optimize]
  rw [if_neg (by omega), if_pos]
  · exact ⟨_, rfl⟩
  · refine ⟨trivial, ?_⟩
    rw [greedyNearestNeighbor_length, List.length_map, List.enum_length]
    omega

/-- Witness for C1's theorem at a concrete 4-polyline input. -/
theorem optimize_use2Opt_returns_segment_records_witness :
    ∃ segs, optimize [[(1, 1), (2, 1)], [(3, 1), (4, 1)], [(5, 1), (6, 1)],
      [(7, 1), (8, 1)]] (1, 2) true = Sum.inr segs :=
  optimize_use2Opt_returns_segment_records _ _ (by decide) (by decide)

/-- The concrete input refuting C2: three point-like polylines on the x-axis
in an order whose travel (2 + 3 + 3 = 8 from the start point (10, 0)) beats
the greedy tour's travel (1 + 3 + 6 = 10). -/
def c2Input : List (List Point) :=
  [[(8, 0), (8, 0)], [(11, 0), (11, 0)], [(14, 0), (14, 0)]]

theorem c2_greedy_result :
    optimizeGreedy c2Input (10, 0) =
      [[(11, 0), (11, 0)], [(8, 0), (8, 0)], [(14, 0), (14, 0)]] := by
  have d1 : distance ((10 : ℚ), (0 : ℚ)) ((8 : ℚ), (0 : ℚ)) = 2 :=
    distance_eval _ _ 2 (by norm_num) (by norm_num)
  have d2 : distance ((10 : ℚ), (0 : ℚ)) ((11 : ℚ), (0 : ℚ)) = 1 :=
    distance_eval _ _ 1 (by norm_num) (by norm_num)
  have d3 : distance ((10 : ℚ), (0 : ℚ)) ((14 : ℚ), (0 : ℚ)) = 4 :=
    distance_eval _ _ 4 (by norm_num) (by norm_num)
  have d4 : distance ((11 : ℚ), (0 : ℚ)) ((8 : ℚ), (0 : ℚ)) = 3 :=
    distance_eval _ _ 3 (by norm_num) (by norm_num)
  have d5 : distance ((11 : ℚ), (0 : ℚ)) ((14 : ℚ), (0 : ℚ)) = 3 :=
    distance_eval _ _ 3 (by norm_num) (by norm_num)
  have d6 : distance ((8 : ℚ), (0 : ℚ)) ((14 : ℚ), (0 : ℚ)) = 6 :=
    distance_eval _ _ 6 (by norm_num) (by norm_num)
  norm_num [c2Input, optimizeGreedy, optimize, greedyNearestNeighbor,
    greedyGo, findBest, ltBest, List.enum, d1, d2, d3, d4, d5, d6]

theorem c2_travel_values :
    (calculateStats (optimizeGreedy c2Input (10, 0)) (10, 0)).totalTravel = 10 ∧
    (calculateStats c2Input (10, 0)).totalTravel = 8 := by
  have d1 : distance ((10 : ℚ), (0 : ℚ)) ((8 : ℚ), (0 : ℚ)) = 2 :=
    distance_eval _ _ 2 (by norm_num) (by norm_num)
  have d2 : distance ((10 : ℚ), (0 : ℚ)) ((11 : ℚ), (0 : ℚ)) = 1 :=
    distance_eval _ _ 1 (by norm_num) (by norm_num)
  have d4 : distance ((11 : ℚ), (0 : ℚ)) ((8 : ℚ), (0 : ℚ)) = 3 :=
    distance_eval _ _ 3 (by norm_num) (by norm_num)
  have d5 : distance ((11 : ℚ), (0 : ℚ)) ((14 : ℚ), (0 : ℚ)) = 3 :=
    distance_eval _ _ 3 (by norm_num) (by norm_num)
  have d6 : distance ((8 : ℚ), (0 : ℚ)) ((14 : ℚ), (0 : ℚ)) = 6 :=
    distance_eval _ _ 6 (by norm_num) (by norm_num)
  have e1 : distance ((8 : ℚ), (0 : ℚ)) ((8 : ℚ), (0 : ℚ)) = 0 :=
    distance_eval _ _ 0 (by norm_num) (by norm_num)
  have e2 : distance ((11 : ℚ), (0 : ℚ)) ((11 : ℚ), (0 : ℚ)) = 0 :=
    distance_eval _ _ 0 (by norm_num) (by norm_num)
  have e3 : distance ((14 : ℚ), (0 : ℚ)) ((14 : ℚ), (0 : ℚ)) = 0 :=
    distance_eval _ _ 0 (by norm_num) (by norm_num)
  have d7 : distance ((8 : ℚ), (0 : ℚ)) ((11 : ℚ), (0 : ℚ)) = 3 :=
    distance_eval _ _ 3 (by norm_num) (by norm_num)
  rw [c2_greedy_result]
  norm_num [c2Input, calculateStats, statsGo, drawLen,
    d1, d2, d4, d5, d6, d7, e1, e2, e3]

/-- C2, counterexample: the claim "for every list of N ≥ 2 polylines and
every fixed start point, the total pen-up travel distance (as computed by
calculateStats) of the ordering produced by optimize's greedy
nearest-neighbor construction is ≤ the total travel distance of the original
input order" is false: on `c2Input` from start point (10, 0) the greedy
order travels 10 while the input order travels 8. -/
theorem greedy_not_always_le_input_order :
    ¬ (∀ (polylines : List (List Point)) (startPoint : Point),
        2 ≤ polylines.length →
        (calculateStats (optimizeGreedy polylines startPoint)
            startPoint).totalTravel ≤
          (calculateStats polylines startPoint).totalTravel) := by
  intro h
  have := h c2Input (10, 0) (by decide)
  rw [c2_travel_values.1, c2_travel_values.2] at this
  norm_num at this

/-- C2, amended: the greedy construction is only locally optimal.  From any
non-empty pool of remaining segments and any current pen position, the first
pen-up leg of the tour it builds is at most the distance from the current
position to either endpoint of every remaining segment (and since every
suffix of the tour is itself such a greedy tour from the previous exit
point, every leg is minimal at the moment it is chosen); the global
comparison against the input order asserted by the claim does not hold. -/
theorem greedy_first_leg_minimal (segs : List Segment) (startPoint : Point)
    (hne : segs ≠ []) :
    ∃ c rest, greedyNearestNeighbor segs startPoint = c :: rest ∧
      ∀ t ∈ segs,
        distance startPoint (segStart c) ≤ distance startPoint t.start ∧
        distance startPoint (segStart c) ≤ distance startPoint t.endp := by
  obtain ⟨k, s, br, hk, heq, hmin⟩ :=
    greedyGo_step (segs.length - 1) segs startPoint hne
  have hlen : segs.length = (segs.length - 1) + 1 := by
    cases segs with
    | nil => exact absurd rfl hne
    | cons a l => simp
  refine ⟨{ s with reversed := br },
    greedyGo (segs.length - 1) (segs.eraseIdx k)
      (if br then s.start else s.endp), ?_, ?_⟩
  · rw [greedyNearestNeighbor]
    nth_rewrite 1 [hlen]
    exact heq
  · intro t ht
    have := hmin t ht
    simpa [segStart] using this

/-- Witness for C2's amended theorem at a concrete input. -/
theorem greedy_first_leg_minimal_witness :
    ∃ c rest,
      greedyNearestNeighbor
        [{ index := 0, polyline := [(3, 4), (5, 4)], start := (3, 4),
           endp := (5, 4), reversed := false }] (1, 2) = c :: rest ∧
      ∀ t ∈ [{ index := 0, polyline := [(3, 4), (5, 4)], start := (3, 4),
               endp := (5, 4), reversed := false : Segment }],
        distance (1, 2) (segStart c) ≤ distance (1, 2) t.start ∧
        distance (1, 2) (segStart c) ≤ distance (1, 2) t.endp :=
  greedy_first_leg_minimal _ _ (by decide)

end PathOptimizer

/-! ## SVGProcessor stroke merging (`_mergeContinuousStrokes`)

`Math.acos(dot) * 180 / Math.PI` (the turn angle in degrees between two unit
direction vectors, computed from their clamped dot product) is modelled by an
abstract parameter `acosDeg : ℚ → ℚ`; every statement below holds for every
such function, because both the code and the claim measure the angle through
this same computation. -/

namespace SVGProcessor

/-- The local helper `getStrokeDirection`: unit vector from a stroke's first
to its last point (`null` for short or degenerate strokes);
`Math.hypot dx dy` is `ratSqrt (dx² + dy²)`. -/
def getStrokeDirection (stroke : List Point) : Option Point :=
  if stroke.length < 2 then none
  else
    let dx := (stroke.getLastD (0, 0)).1 - (stroke.headD (0, 0)).1
    let dy := (stroke.getLastD (0, 0)).2 - (stroke.headD (0, 0)).2
    let length := ratSqrt (dx ^ 2 + dy ^ 2)
    if length < 1 / 1000 then none
    else some (dx / length, dy / length)

/-- The local helper `angleBetweenVectors`: 0 for a missing direction, else
the degree-angle of the clamped dot product. -/
def angleBetweenVectors (acosDeg : ℚ → ℚ) :
    Option Point → Option Point → ℚ
  | some v1, some v2 =>
    let dot := v1.1 * v2.1 + v1.2 * v2.2
    acosDeg (max (-1) (min 1 dot))
  | _, _ => 0

/-- The `for (i = 1; ...)` loop of `_mergeContinuousStrokes`, carrying the
growing `current` stroke; at the end `current` is pushed. -/
def mergeGo (acosDeg : ℚ → ℚ) (maxGap minAngleDeg : ℚ) :
    List (List Point) → List Point → List (List Point)
  | [], current => [current]
  | nextStroke :: rest, current =>
    if current.length < 2 ∨ nextStroke.length < 2 then
      current :: mergeGo acosDeg maxGap minAngleDeg rest nextStroke
    else
      let endPoint := current.getLastD (0, 0)
      let startPoint := nextStroke.headD (0, 0)
      let gap := ratSqrt ((endPoint.1 - startPoint.1) ^ 2 +
        (endPoint.2 - startPoint.2) ^ 2)
      if maxGap < gap then
        current :: mergeGo acosDeg maxGap minAngleDeg rest nextStroke
      else
        let angle := angleBetweenVectors acosDeg (getStrokeDirection current)
          (getStrokeDirection nextStroke)
        if angle ≤ 180 - minAngleDeg then
          mergeGo acosDeg maxGap minAngleDeg rest
            (if gap < 1 / 100 then current ++ nextStroke.drop 1
             else current ++ nextStroke)
        else
          current :: mergeGo acosDeg maxGap minAngleDeg rest nextStroke

/-- `SVGProcessor._mergeContinuousStrokes` (defaults `maxGap = 0.1`,
`minAngleDeg = 160` are supplied at the call sites below): lists of at most
one stroke are returned unchanged, otherwise the scan starts with a copy of
`strokes[0]`. -/
def mergeContinuousStrokes (acosDeg : ℚ → ℚ) (strokes : List (List Point))
    (maxGap minAngleDeg : ℚ) : List (List Point) :=
  if strokes.length ≤ 1 then strokes
  else mergeGo acosDeg maxGap minAngleDeg strokes.tail (strokes.headD [])

/-- The merge step as worded by the specification: consecutive strokes A
then B are merged exactly when the gap between A's end and B's start is
≤ 0.1 and the turn angle between their directions is ≤ 20°, concatenating
the points and dropping B's duplicate leading point when the gap is below
0.01.  (Strokes of fewer than 2 points take no part in merging.) -/
def mergeSpecGo (acosDeg : ℚ → ℚ) :
    List (List Point) → List Point → List (List Point)
  | [], current => [current]
  | nextStroke :: rest, current =>
    let gap := ratSqrt (((current.getLastD (0, 0)).1 -
        (nextStroke.headD (0, 0)).1) ^ 2 +
      ((current.getLastD (0, 0)).2 - (nextStroke.headD (0, 0)).2) ^ 2)
    let angle := angleBetweenVectors acosDeg (getStrokeDirection current)
      (getStrokeDirection nextStroke)
    if 2 ≤ current.length ∧ 2 ≤ nextStroke.length ∧ gap ≤ 1 / 10 ∧
        angle ≤ 20 then
      mergeSpecGo acosDeg rest
        (current ++ (if gap < 1 / 100 then nextStroke.drop 1 else nextStroke))
    else
      current :: mergeSpecGo acosDeg rest nextStroke

/-- Top level of the specification's scan. -/
def mergeContinuousStrokesSpec (acosDeg : ℚ → ℚ)
    (strokes : List (List Point)) : List (List Point) :=
  match strokes with
  | [] => []
  | s :: rest => mergeSpecGo acosDeg rest s

theorem mergeGo_eq_specGo (acosDeg : ℚ → ℚ) :
    ∀ (rest : List (List Point)) (current : List Point),
      mergeGo acosDeg (1 / 10) 160 rest current =
      mergeSpecGo acosDeg rest current
  | [], _ => rfl
  | nextStroke :: rest, current => by
    have ih := mergeGo_eq_specGo acosDeg rest
    simp only [mergeGo, mergeSpecGo]
    set g := ratSqrt (((current.getLastD (0, 0)).1 -
        (nextStroke.headD (0, 0)).1) ^ 2 +
      ((current.getLastD (0, 0)).2 - (nextStroke.headD (0, 0)).2) ^ 2) with hg
    set a := angleBetweenVectors acosDeg (getStrokeDirection current)
      (getStrokeDirection nextStroke) with ha
    by_cases h1 : current.length < 2 ∨ nextStroke.length < 2
    · rw [if_pos h1, if_neg, ih]
      intro hc
      obtain ⟨hA, hB, -, -⟩ := hc
      rcases h1 with h | h
      · omega
      · omega
    · push_neg at h1
      rw [if_neg (by omega : ¬ (current.length < 2 ∨ nextStroke.length < 2))]
      by_cases h2 : (1 / 10 : ℚ) < g
      · rw [if_pos h2, if_neg, ih]
        intro hc
        exact absurd hc.2.2.1 (not_le.mpr h2)
      · rw [if_neg h2]
        by_cases h3 : a ≤ (180 : ℚ) - 160
        · rw [if_pos h3]
          have hcond : 2 ≤ current.length ∧ 2 ≤ nextStroke.length ∧
              g ≤ 1 / 10 ∧ a ≤ 20 :=
            ⟨h1.1, h1.2, not_lt.mp h2, by linarith⟩
          rw [if_pos hcond]
          by_cases h4 : g < 1 / 100
          · rw [if_pos h4, if_pos h4, ih]
          · rw [if_neg h4, if_neg h4, ih]
        · rw [if_neg h3, if_neg, ih]
          intro hc
          exact h3 (by linarith [hc.2.2.2])

/-- C6: "The stroke-merge step, scanning strokes in original order, merges
consecutive strokes A then B into one polyline exactly when the gap between
A's end and B's start is ≤ 0.1 native units and the turn angle between A's
trailing direction and B's leading direction is ≤ 20 degrees, concatenating
the points and dropping B's duplicate leading point when the gap is below
0.01."  Confirmed as a refinement: `_mergeContinuousStrokes` at its default
thresholds coincides, for every angle function and every stroke list, with
the scan written from the claim's words. -/
theorem mergeContinuousStrokes_eq_spec (acosDeg : ℚ → ℚ)
    (strokes : List (List Point)) :
    mergeContinuousStrokes acosDeg strokes (1 / 10) 160 =
    mergeContinuousStrokesSpec acosDeg strokes := by
  match strokes with
  | [] => rfl
  | [s] => rfl
  | s :: t :: rest =>
    rw [mergeContinuousStrokes, if_neg (by simp)]
    show mergeGo acosDeg (1 / 10) 160 (t :: rest) s = _
    rw [mergeGo_eq_specGo]
    rfl

end SVGProcessor

/-! ## SVGProcessor transform parsing (`_getTransformMatrix` / `_applyTransform`)

A `transform` attribute is tokenized by the code's regex into a list of
sub-commands, each a name with a list of numeric arguments; the embedding
starts from that token list.  `Math.cos`/`Math.sin` of `angle · π / 180`
are modelled by the degree-parameterised functions `cosd sind : ℚ → ℚ`. -/

namespace SVGProcessor

/-- The affine matrix record `{a, b, c, d, e, f}` mapping
`(x, y) ↦ (a·x + c·y + e, b·x + d·y + f)`. -/
structure Mat2D where
  a : ℚ
  b : ℚ
  c : ℚ
  d : ℚ
  e : ℚ
  f : ℚ
deriving DecidableEq, Repr

/-- The local helper `multiply` of `_getTransformMatrix`. -/
def multiply (m1 m2 : Mat2D) : Mat2D :=
  { a := m1.a * m2.a + m1.c * m2.b
    b := m1.b * m2.a + m1.d * m2.b
    c := m1.a * m2.c + m1.c * m2.d
    d := m1.b * m2.c + m1.d * m2.d
    e := m1.a * m2.e + m1.c * m2.f + m1.e
    f := m1.b * m2.e + m1.d * m2.f + m1.f }

/-- The identity matrix `{a:1, b:0, c:0, d:1, e:0, f:0}`. -/
def idMat : Mat2D := { a := 1, b := 0, c := 0, d := 1, e := 0, f := 0 }

/-- One parsed transform sub-command (name plus numeric arguments, as
produced by the code's tokenizing regex). -/
inductive TransformCmd
  | translate (args : List ℚ)
  | scale (args : List ℚ)
  | rotate (args : List ℚ)
  | matrixCmd (args : List ℚ)
  | unknown
deriving DecidableEq

/-- The `switch (type)` of `parseTransform`, building the matrix `t` of one
sub-command (`args[k] || 0` and `args[k] !== undefined ? args[k] : v`
become `getD`); an unrecognized command keeps the identity `t`. -/
def cmdMatrix (cosd sind : ℚ → ℚ) : TransformCmd → Mat2D
  | .translate args => { idMat with e := args.getD 0 0, f := args.getD 1 0 }
  | .scale args =>
    let sx := args.getD 0 1
    let sy := args.getD 1 sx
    { idMat with a := sx, d := sy }
  | .rotate args =>
    let angle := args.getD 0 0
    let c := cosd angle
    let s := sind angle
    if 3 ≤ args.length then
      let cx := args.getD 1 0
      let cy := args.getD 2 0
      multiply
        (multiply { idMat with e := cx, f := cy }
          { a := c, b := s, c := -s, d := c, e := 0, f := 0 })
        { idMat with e := -cx, f := -cy }
    else { a := c, b := s, c := -s, d := c, e := 0, f := 0 }
  | .matrixCmd args =>
    if args.length = 6 then
      { a := args.getD 0 0, b := args.getD 1 0, c := args.getD 2 0,
        d := args.getD 3 0, e := args.getD 4 0, f := args.getD 5 0 }
    else idMat
  | .unknown => idMat

/-- The command loop of `parseTransform`: starting from the identity,
`m = multiply(m, t)` for each sub-command in textual order. -/
def parseTransform (cosd sind : ℚ → ℚ) (cmds : List TransformCmd) : Mat2D :=
  cmds.foldl (fun m t => multiply m (cmdMatrix cosd sind t)) idMat

/-- `SVGProcessor._applyTransform`. -/
def applyTransform (polyline : List Point) (matrix : Mat2D) : List Point :=
  polyline.map fun p =>
    (matrix.a * p.1 + matrix.c * p.2 + matrix.e,
     matrix.b * p.1 + matrix.d * p.2 + matrix.f)

/-- C7: "Parsing a transform attribute applies its sub-commands
left-to-right as successive matrix multiplications of the accumulated local
matrix; in particular an element with transform="translate(10,0) rotate(90)"
applied to the point (1,0) yields (10,1)."  The first conjunct is the
left-to-right fold law; the second is the concrete instance, for any
degree-trigonometry with cos 90° = 0 and sin 90° = 1. -/
theorem parseTransform_left_to_right (cosd sind : ℚ → ℚ)
    (hc : cosd 90 = 0) (hs : sind 90 = 1) :
    (∀ (cmds : List TransformCmd) (cmd : TransformCmd),
      parseTransform cosd sind (cmds ++ [cmd]) =
        multiply (parseTransform cosd sind cmds) (cmdMatrix cosd sind cmd)) ∧
    applyTransform [(1, 0)]
      (parseTransform cosd sind
        [.translate [10, 0], .rotate [90]]) = [(10, 1)] := by
  constructor
  · intro cmds cmd
    rw [parseTransform, List.foldl_append]
    rfl
  · norm_num [parseTransform, List.foldl, cmdMatrix, multiply, idMat,
      applyTransform, hc, hs]

/-- Witness for C7's theorem at concrete trigonometric functions. -/
theorem parseTransform_left_to_right_witness :
    (∀ (cmds : List TransformCmd) (cmd : TransformCmd),
      parseTransform (fun _ => 0) (fun _ => 1) (cmds ++ [cmd]) =
        multiply (parseTransform (fun _ => 0) (fun _ => 1) cmds)
          (cmdMatrix (fun _ => 0) (fun _ => 1) cmd)) ∧
    applyTransform [(1, 0)]
      (parseTransform (fun _ => 0) (fun _ => 1)
        [.translate [10, 0], .rotate [90]]) = [(10, 1)] :=
  parseTransform_left_to_right (fun _ => 0) (fun _ => 1) rfl rfl

end SVGProcessor

/-! ## GCodeGenerator (src/js/gcodeGenerator.js)

The generator emits a list of text lines; each emitted line is modelled as a
structured value carrying the exact numeric content that the JS code
interpolates into the string (`toFixed(3)` and feed-rate rounding are string
presentation of these values).  The expanded header and footer templates are
taken as given lists of lines (template expansion is string substitution on
the settings context and is not involved in any claim below). -/

namespace GCodeGenerator

/-- The `Settings` record, restricted to the numeric fields the motion body
uses.  JavaScript's `Number.isFinite` fallbacks cannot fire in the rational
model (every `ℚ` is finite), so the `safe*` values equal the fields. -/
structure Settings where
  bedWidth : ℚ
  bedHeight : ℚ
  penUpZ : ℚ
  sheetHeight : ℚ
  penOffset : ℚ × ℚ × ℚ
  feedRate : ℚ
  travelFeedRate : ℚ
deriving DecidableEq

/-- The default constants at the top of the file (bed 256×256,
pen-up Z 0.6, sheet height 0.15, feed 3000, travel feed 9000,
offset [0,0,0]). -/
def defaultSettings : Settings :=
  { bedWidth := 256, bedHeight := 256, penUpZ := 3 / 5, sheetHeight := 3 / 20,
    penOffset := (0, 0, 0), feedRate := 3000, travelFeedRate := 9000 }

/-- One emitted G-code line.  `raw` covers header/footer template lines;
the other constructors mirror precisely the body lines pushed by
`generate`:
* `polyComment n`  — `; Polyline n`
* `travel x y z f` — `G0 X.. Y.. Z(nozzleUpZ) F(travelFeedRate)`
* `penDown z f`    — `G0 Z(nozzleDownZ) F(travelFeedRate) ; Pen down`
* `draw x y f`     — `G1 X.. Y.. F(feedRate)`
* `penUp z f`      — `G0 Z(nozzleUpZ) F(travelFeedRate) ; Pen up`
* `progress p`     — `M73 P(p) R0 ; Progress`
* `blank`          — the empty separator line. -/
inductive GLine
  | raw (s : String)
  | polyComment (n : ℕ)
  | travel (x y z f : ℚ)
  | penDown (z f : ℚ)
  | draw (x y f : ℚ)
  | penUp (z f : ℚ)
  | progress (p : ℤ)
  | blank
deriving DecidableEq

/-- The `polylines.forEach` body of `generate`, carrying the original index
of each polyline (`idx`) and the running `completedPolylines` counter. -/
def generateBody (offsetX offsetY nozzleUpZ nozzleDownZ feedRate
    travelFeedRate : ℚ) (total : ℕ) :
    List (ℕ × List Point) → ℕ → List GLine
  | [], _ => []
  | (idx, pl) :: rest, completed =>
    if pl.length < 2 then
      generateBody offsetX offsetY nozzleUpZ nozzleDownZ feedRate
        travelFeedRate total rest completed
    else
      [GLine.polyComment (idx + 1),
       GLine.travel ((pl.headD (0, 0)).1 - offsetX)
         ((pl.headD (0, 0)).2 - offsetY) nozzleUpZ travelFeedRate,
       GLine.penDown nozzleDownZ travelFeedRate] ++
      (pl.drop 1).map (fun p =>
        GLine.draw (p.1 - offsetX) (p.2 - offsetY) feedRate) ++
      [GLine.penUp nozzleUpZ travelFeedRate,
       GLine.progress (round (((completed + 1 : ℕ) : ℚ) / (total : ℚ) * 100)),
       GLine.blank] ++
      generateBody offsetX offsetY nozzleUpZ nozzleDownZ feedRate
        travelFeedRate total rest (completed + 1)

/-- `GCodeGenerator.generate`: expanded header lines, a blank separator, the
per-polyline motion body, the expanded footer lines and a final blank line
(the JS joins this list with `"\n"`). -/
def generate (polylines : List (List Point)) (s : Settings)
    (headerLines footerLines : List String) : List GLine :=
  let offsetX := s.penOffset.1
  let offsetY := s.penOffset.2.1
  let offsetZ := s.penOffset.2.2
  let nozzleUpZ := s.penUpZ - offsetZ
  let nozzleDownZ := s.sheetHeight - offsetZ
  let totalPolylines := (polylines.filter fun pl => 2 ≤ pl.length).length
  headerLines.map GLine.raw ++ [GLine.blank] ++
    generateBody offsetX offsetY nozzleUpZ nozzleDownZ s.feedRate
      s.travelFeedRate totalPolylines polylines.enum 0 ++
    footerLines.map GLine.raw ++ [GLine.blank]

/-- The specification's description of one emitted block, for the polyline
with original index `idx` (0-based) that is the `completedCount`-th drawable
one: a travel move to its first point at `nozzleUpZ = penUpZ - offsetZ`
using the travel feed rate, a pen-down move to
`nozzleDownZ = sheetHeight - offsetZ`, one drawing move per subsequent point
at the drawing feed rate, a pen-up move back to `nozzleUpZ`, and the
progress annotation `round(completedCount / totalCount × 100)`; every
emitted X/Y coordinate is the source coordinate minus offsetX/offsetY. -/
def specBlock (s : Settings) (total : ℕ) (completedCount idx : ℕ)
    (pl : List Point) : List GLine :=
  [GLine.polyComment (idx + 1),
   GLine.travel ((pl.headD (0, 0)).1 - s.penOffset.1)
     ((pl.headD (0, 0)).2 - s.penOffset.2.1)
     (s.penUpZ - s.penOffset.2.2) s.travelFeedRate,
   GLine.penDown (s.sheetHeight - s.penOffset.2.2) s.travelFeedRate] ++
  (pl.drop 1).map (fun p =>
    GLine.draw (p.1 - s.penOffset.1) (p.2 - s.penOffset.2.1) s.feedRate) ++
  [GLine.penUp (s.penUpZ - s.penOffset.2.2) s.travelFeedRate,
   GLine.progress (round ((completedCount : ℚ) / (total : ℚ) * 100)),
   GLine.blank]

/-- The generator's output as the specification words it: one `specBlock`
per polyline with at least 2 points, in order, where `totalCount` counts
only such polylines and `completedCount` is the 1-based rank among them. -/
def generateSpec (polylines : List (List Point)) (s : Settings)
    (headerLines footerLines : List String) : List GLine :=
  let total := (polylines.filter fun pl => 2 ≤ pl.length).length
  headerLines.map GLine.raw ++ [GLine.blank] ++
    (((polylines.enum.filter fun p => 2 ≤ p.2.length).enumFrom 1).map
      (fun rp => specBlock s total rp.1 rp.2.1 rp.2.2)).flatten ++
    footerLines.map GLine.raw ++ [GLine.blank]

theorem generateBody_eq_spec (s : Settings) (total : ℕ) :
    ∀ (l : List (ℕ × List Point)) (completed : ℕ),
      generateBody s.penOffset.1 s.penOffset.2.1
        (s.penUpZ - s.penOffset.2.2) (s.sheetHeight - s.penOffset.2.2)
        s.feedRate s.travelFeedRate total l completed =
      (((l.filter fun p => 2 ≤ p.2.length).enumFrom (completed + 1)).map
        (fun rp => specBlock s total rp.1 rp.2.1 rp.2.2)).flatten
  | [], _ => rfl
  | (idx, pl) :: rest, completed => by
    by_cases h : pl.length < 2
    · rw [generateBody, if_pos h, List.filter_cons_of_neg (by simpa using h),
        generateBody_eq_spec s total rest completed]
    · rw [generateBody, if_neg h,
        List.filter_cons_of_pos (by simpa using not_lt.mp h),
        List.enumFrom_cons, List.map_cons, List.flatten_cons,
        generateBody_eq_spec s total rest (completed + 1)]
      rfl

/-- C3: "For every input list and settings, generate emits for each polyline
with at least 2 points, in order: a travel move to its first point at
nozzleUpZ = penUpZ - offsetZ using the travel feed rate, a pen-down move to
nozzleDownZ = sheetHeight - offsetZ, one drawing move per subsequent point
at the drawing feed rate, a pen-up move back to nozzleUpZ, and a progress
annotation round(completedCount/totalCount x 100) where totalCount counts
only polylines with at least 2 points; and every emitted X/Y coordinate
equals the source coordinate minus offsetX/offsetY." -/
theorem generate_eq_spec (polylines : List (List Point)) (s : Settings)
    (headerLines footerLines : List String) :
    generate polylines s headerLines footerLines =
    generateSpec polylines s headerLines footerLines := by
  simp only [generate, generateSpec]
  rw [generateBody_eq_spec]

/-- C9: "If the input list to generate contains no polyline with at least 2
points (including the empty list), the returned text consists exactly of the
expanded header template, one blank line, the expanded footer template, and
one trailing blank line, with no G0/G1 motion body lines and no M73 progress
lines." -/
theorem generate_no_drawables (polylines : List (List Point)) (s : Settings)
    (headerLines footerLines : List String)
    (h : ∀ pl ∈ polylines, pl.length < 2) :
    generate polylines s headerLines footerLines =
      headerLines.map GLine.raw ++ [GLine.blank] ++
      footerLines.map GLine.raw ++ [GLine.blank] ∧
    ∀ line ∈ generate polylines s headerLines footerLines,
      (∃ str, line = GLine.raw str) ∨ line = GLine.blank := by
  have hfilter : polylines.enum.filter (fun p => 2 ≤ p.2.length) = [] := by
    rw [List.filter_eq_nil_iff]
    intro p hp
    have hp2 : p.2 ∈ polylines :=
      List.getElem?_mem (List.mem_enum_iff_getElem?.mp hp)
    have := h p.2 hp2
    simpa using this
  have hbody : generate polylines s headerLines footerLines =
      headerLines.map GLine.raw ++ [GLine.blank] ++
      footerLines.map GLine.raw ++ [GLine.blank] := by
    rw [generate_eq_spec]
    simp only [generateSpec, hfilter]
    simp
  refine ⟨hbody, ?_⟩
  intro line hline
  rw [hbody] at hline
  simp only [List.mem_append, List.mem_map, List.mem_singleton] at hline
  rcases hline with ((⟨str, -, rfl⟩ | rfl) | ⟨str, -, rfl⟩) | rfl
  · exact Or.inl ⟨str, rfl⟩
  · exact Or.inr rfl
  · exact Or.inl ⟨str, rfl⟩
  · exact Or.inr rfl

/-- Witness for C9's theorem: a list with one single-point polyline and one
empty polyline. -/
theorem generate_no_drawables_witness :
    generate [[(1, 2)], []] defaultSettings ["H1", "H2"] ["F1"] =
      (["H1", "H2"].map GLine.raw ++ [GLine.blank] ++
        ["F1"].map GLine.raw ++ [GLine.blank]) ∧
    ∀ line ∈ generate [[(1, 2)], []] defaultSettings ["H1", "H2"] ["F1"],
      (∃ str, line = GLine.raw str) ∨ line = GLine.blank :=
  generate_no_drawables [[(1, 2)], []] defaultSettings ["H1", "H2"] ["F1"]
    (by decide)

end GCodeGenerator

/-! ## GCodeValidator (`validate`)

The validator re-parses generated text line by line.  Strings are modelled
as `List Char`; the regex searches of the code are implemented as explicit
character scanners with the same semantics:
* `/\b(G0|G1)\b/i.test` → `isMotionLine` (case-insensitive word-boundary
  token search);
* `X([-+]?\d+\.?\d*)/i` (and `Y`, `Z`) → `findParam letter true`;
* `F(\d+\.?\d*)/i` (no sign) → `findParam letter false`;
* `/^([GM]\d+)/i` → `commandAt`.
Issues are modelled structurally (constructor per message kind, carrying the
line number and the offending values). -/

namespace GCodeValidator

/-- Case-insensitive character comparison. -/
def ciEq (a b : Char) : Bool := a.toLower = b.toLower

/-- A regex word character (`\w`): letter, digit or underscore. -/
def isWordChar (c : Char) : Bool := c.isAlphanum || c = '_'

/-- `String.prototype.trim`. -/
def trim (s : List Char) : List Char :=
  ((s.dropWhile Char.isWhitespace).reverse.dropWhile Char.isWhitespace).reverse

/-- `gcode.split('\n')`. -/
def splitLinesGo : List Char → List Char → List (List Char)
  | [], acc => [acc.reverse]
  | c :: rest, acc =>
    if c = '\n' then acc.reverse :: splitLinesGo rest []
    else splitLinesGo rest (c :: acc)

def splitLines (s : List Char) : List (List Char) := splitLinesGo s []

/-- `line.split(';')[0]`. -/
def beforeComment (s : List Char) : List Char := s.takeWhile (· ≠ ';')

/-- Does the case-insensitive token start here?  Returns the remaining
characters on success. -/
def startsWithCI : List Char → List Char → Option (List Char)
  | [], s => some s
  | _ :: _, [] => none
  | t :: ts, c :: cs => if ciEq t c then startsWithCI ts cs else none

/-- The scan of `/\btok\b/i`: boundary before, token, boundary after. -/
def hasWordTokenGo (tok : List Char) : Option Char → List Char → Bool
  | _, [] => false
  | prev, c :: cs =>
    ((match prev with | none => true | some p => !isWordChar p) &&
      (match startsWithCI tok (c :: cs) with
       | some [] => true
       | some (r :: _) => !isWordChar r
       | none => false)) ||
    hasWordTokenGo tok (some c) cs

def hasWordToken (tok : String) (s : List Char) : Bool :=
  hasWordTokenGo tok.toList none s

/-- `/\b(G0|G1)\b/i.test(trimmedCommand)`. -/
def isMotionLine (s : List Char) : Bool :=
  hasWordToken "G0" s || hasWordToken "G1" s

/-- Decimal value of a digit string. -/
def digitsToNat (ds : List Char) : ℕ :=
  ds.foldl (fun a c => a * 10 + (c.toNat - 48)) 0

/-- The number pattern `[-+]?\d+\.?\d*` (sign only when `signed`), matched
at the current position: returns (negative?, integer digits, fraction
digits), or `none` when the pattern does not match here. -/
def matchNumber (signed : Bool) (s : List Char) :
    Option (Bool × List Char × List Char) :=
  let ns : Bool × List Char :=
    if signed then
      match s with
      | '-' :: r => (true, r)
      | '+' :: r => (false, r)
      | _ => (false, s)
    else (false, s)
  let ds := ns.2.takeWhile Char.isDigit
  if ds.isEmpty then none
  else
    let s2 := ns.2.dropWhile Char.isDigit
    let fr := match s2 with
      | '.' :: r => r.takeWhile Char.isDigit
      | _ => []
    some (ns.1, ds, fr)

/-- Leftmost-match search for `letter` followed by the number pattern. -/
def findParamGo (letter : Char) (signed : Bool) :
    List Char → Option (Bool × List Char × List Char)
  | [] => none
  | c :: cs =>
    if ciEq letter c then
      match matchNumber signed cs with
      | some m => some m
      | none => findParamGo letter signed cs
    else findParamGo letter signed cs

/-- `parseFloat` of the matched group. -/
def parseFloatParts (m : Bool × List Char × List Char) : ℚ :=
  (if m.1 then -1 else 1) *
    ((digitsToNat m.2.1 : ℚ) + (digitsToNat m.2.2 : ℚ) / 10 ^ m.2.2.length)

/-- `trimmedCommand.match(/L([-+]?\d+\.?\d*)/i)` followed by `parseFloat`
(`L` the parameter letter; the sign part is absent for `F`). -/
def findParam (letter : Char) (signed : Bool) (s : List Char) : Option ℚ :=
  (findParamGo letter signed s).map parseFloatParts

/-- `/^([GM]\d+)/i` at the start of the trimmed command, upper-cased. -/
def commandAt (s : List Char) : Option (List Char) :=
  match s with
  | [] => none
  | c :: rest =>
    if c.toLower = 'g' || c.toLower = 'm' then
      let ds := rest.takeWhile Char.isDigit
      if ds.isEmpty then none else some (c.toUpper :: ds)
    else none

/-- The `knownCommands` allow-list. -/
def knownCommands : List (List Char) :=
  ["G0".toList, "G1".toList, "G2".toList, "G3".toList, "G4".toList,
   "G28".toList, "G90".toList, "G91".toList, "G92".toList,
   "M0".toList, "M1".toList, "M73".toList, "M82".toList, "M83".toList,
   "M104".toList, "M106".toList, "M107".toList, "M109".toList,
   "M140".toList, "M190".toList, "M400".toList, "M84".toList]

/-- One structured validation finding (the constructor and its payload
mirror the text of each pushed message). -/
inductive VIssue
  | xNegative (line : ℕ) (x : ℚ)
  | xExceeds (line : ℕ) (x bedWidth : ℚ)
  | yNegative (line : ℕ) (y : ℚ)
  | yExceeds (line : ℕ) (y bedHeight : ℚ)
  | zNegative (line : ℕ) (z : ℚ)
  | zHigh (line : ℕ) (z maxZ : ℚ)
  | feedNonPositive (line : ℕ) (f : ℚ)
  | feedHigh (line : ℕ) (f maxFeedRate : ℚ)
  | feedLow (line : ℕ) (f : ℚ)
  | unknownCommand (line : ℕ) (cmd : List Char)
  | missingG28
  | missingG90
deriving DecidableEq

/-- The line number an issue refers to (`none` for the two global
warnings). -/
def issueLine : VIssue → Option ℕ
  | .xNegative n _ => some n
  | .xExceeds n _ _ => some n
  | .yNegative n _ => some n
  | .yExceeds n _ _ => some n
  | .zNegative n _ => some n
  | .zHigh n _ _ => some n
  | .feedNonPositive n _ => some n
  | .feedHigh n _ _ => some n
  | .feedLow n _ => some n
  | .unknownCommand n _ => some n
  | .missingG28 => none
  | .missingG90 => none

/-- Which issues the code pushes onto `errors` (everything else goes onto
`warnings`). -/
def isErrorKind : VIssue → Bool
  | .xNegative _ _ => true
  | .xExceeds _ _ _ => true
  | .yNegative _ _ => true
  | .yExceeds _ _ _ => true
  | .zNegative _ _ => true
  | .feedNonPositive _ _ => true
  | _ => false

/-- A feed-rate finding (error or warning)? -/
def isFeedIssue : VIssue → Bool
  | .feedNonPositive _ _ => true
  | .feedHigh _ _ _ => true
  | .feedLow _ _ => true
  | _ => false

/-- The validator settings with their destructuring defaults. -/
structure VSettings where
  bedWidth : ℚ
  bedHeight : ℚ
  maxZ : ℚ
  maxFeedRate : ℚ
deriving DecidableEq

def defaultVSettings : VSettings :=
  { bedWidth := 256, bedHeight := 256, maxZ := 300, maxFeedRate := 15000 }

/-- The `errors.push` calls of one movement line, in program order
(X, then Y, then Z, then F). -/
def lineErrors (st : VSettings) (lineNum : ℕ) (cmd : List Char) :
    List VIssue :=
  if isMotionLine cmd then
    (match findParam 'X' true cmd with
     | some x =>
       if x < 0 then [.xNegative lineNum x]
       else if st.bedWidth < x then [.xExceeds lineNum x st.bedWidth]
       else []
     | none => []) ++
    (match findParam 'Y' true cmd with
     | some y =>
       if y < 0 then [.yNegative lineNum y]
       else if st.bedHeight < y then [.yExceeds lineNum y st.bedHeight]
       else []
     | none => []) ++
    (match findParam 'Z' true cmd with
     | some z => if z < 0 then [.zNegative lineNum z] else []
     | none => []) ++
    (match findParam 'F' false cmd with
     | some f => if f ≤ 0 then [.feedNonPositive lineNum f] else []
     | none => [])
  else []

/-- The `warnings.push` calls of one line, in program order (Z-high and
feed-rate warnings for movement lines, then the unknown-command check for
every line). -/
def lineWarnings (st : VSettings) (lineNum : ℕ) (cmd : List Char) :
    List VIssue :=
  (if isMotionLine cmd then
    (match findParam 'Z' true cmd with
     | some z =>
       if z < 0 then [] else if st.maxZ < z then [.zHigh lineNum z st.maxZ]
       else []
     | none => []) ++
    (match findParam 'F' false cmd with
     | some f =>
       if f ≤ 0 then []
       else if st.maxFeedRate < f then [.feedHigh lineNum f st.maxFeedRate]
       else if f < 100 then [.feedLow lineNum f]
       else []
     | none => [])
   else []) ++
  (match commandAt cmd with
   | some c => if c ∈ knownCommands then [] else [.unknownCommand lineNum c]
   | none => [])

/-- Per-line preprocessing of the validator loop: 1-based line number and
the trimmed pre-comment command text, skipping blank and full-comment
lines. -/
def processedLines (gcode : List Char) : List (ℕ × List Char) :=
  (splitLines gcode).enum.filterMap fun p =>
    match trim p.2 with
    | [] => none
    | c :: rest =>
      if c = ';' then none
      else some (p.1 + 1, trim (beforeComment (c :: rest)))

/-- The result record `{valid, errors, warnings}` (the derived `summary`
string is presentation of the two counts and is not modelled). -/
structure VResult where
  valid : Bool
  errors : List VIssue
  warnings : List VIssue
deriving DecidableEq

/-- `GCodeValidator.validate`. -/
def validate (gcode : List Char) (st : VSettings) : VResult :=
  let lines := processedLines gcode
  let errors := (lines.map fun p => lineErrors st p.1 p.2).flatten
  let hasG28 := lines.any fun p => hasWordToken "G28" p.2
  let hasG90 := lines.any fun p => hasWordToken "G90" p.2
  let warnings := (lines.map fun p => lineWarnings st p.1 p.2).flatten ++
    (if hasG28 then [] else [.missingG28]) ++
    (if hasG90 then [] else [.missingG90])
  { valid := errors.isEmpty, errors := errors, warnings := warnings }

end GCodeValidator

namespace GCodeValidator

/-- Evaluation helper for `parseFloat` of a concrete match. -/
theorem parseFloatParts_eval (neg : Bool) (ip fp : List Char) (a b : ℕ)
    (ha : digitsToNat ip = a) (hb : digitsToNat fp = b) :
    parseFloatParts (neg, ip, fp) =
      (if neg then -1 else 1) * ((a : ℚ) + (b : ℚ) / 10 ^ fp.length) := by
  rw [parseFloatParts, ha, hb]

/-- Every issue `lineErrors` emits is of an error kind. -/
theorem lineErrors_kinds (st : VSettings) (n : ℕ) (cmd : List Char) :
    ∀ e ∈ lineErrors st n cmd, isErrorKind e = true := by
  intro e he
  rw [lineErrors] at he
  split at he
  · simp only [List.mem_append] at he
    rcases he with (((he | he) | he) | he) <;>
      (split at he;
       · split_ifs at he <;> simp_all [isErrorKind]
       · simp at he)
  · simp at he

/-- Every issue `lineWarnings` emits is of a warning kind. -/
theorem lineWarnings_kinds (st : VSettings) (n : ℕ) (cmd : List Char) :
    ∀ w ∈ lineWarnings st n cmd, isErrorKind w = false := by
  intro w hw
  rw [lineWarnings] at hw
  simp only [List.mem_append] at hw
  rcases hw with hw | hw
  · split at hw
    · simp only [List.mem_append] at hw
      rcases hw with hw | hw <;>
        (split at hw;
         · split_ifs at hw <;> simp_all [isErrorKind]
         · simp at hw)
    · simp at hw
  · split at hw
    · split_ifs at hw <;> simp_all [isErrorKind]
    · simp at hw

/-- Structure of `validate` on a document whose preprocessing yields a
single command line. -/
theorem validate_single_line (g : List Char) (st : VSettings)
    (cmd : List Char) (h : processedLines g = [(1, cmd)]) :
    validate g st =
      { valid := (lineErrors st 1 cmd).isEmpty,
        errors := lineErrors st 1 cmd,
        warnings := lineWarnings st 1 cmd ++
          (if hasWordToken "G28" cmd then [] else [.missingG28]) ++
          (if hasWordToken "G90" cmd then [] else [.missingG90]) } := by
  simp [validate, h]

end GCodeValidator

namespace GCodeValidator

theorem validate_doc1 :
    validate "G1 X300 Y10 F3000".toList defaultVSettings =
      { valid := false, errors := [.xExceeds 1 300 256],
        warnings := [.missingG28, .missingG90] } := by
  have hm : isMotionLine "G1 X300 Y10 F3000".toList = true := by decide
  have hX : findParam 'X' true "G1 X300 Y10 F3000".toList = some 300 := by
    rw [findParam, show findParamGo 'X' true "G1 X300 Y10 F3000".toList =
      some (false, ['3', '0', '0'], []) from by decide, Option.map_some',
      parseFloatParts_eval false _ _ 300 0 (by decide) (by decide)]
    norm_num
  have hY : findParam 'Y' true "G1 X300 Y10 F3000".toList = some 10 := by
    rw [findParam, show findParamGo 'Y' true "G1 X300 Y10 F3000".toList =
      some (false, ['1', '0'], []) from by decide, Option.map_some',
      parseFloatParts_eval false _ _ 10 0 (by decide) (by decide)]
    norm_num
  have hZ : findParam 'Z' true "G1 X300 Y10 F3000".toList = none := by
    rw [findParam, show findParamGo 'Z' true "G1 X300 Y10 F3000".toList =
      none from by decide, Option.map_none']
  have hF : findParam 'F' false "G1 X300 Y10 F3000".toList = some 3000 := by
    rw [findParam, show findParamGo 'F' false "G1 X300 Y10 F3000".toList =
      some (false, ['3', '0', '0', '0'], []) from by decide, Option.map_some',
      parseFloatParts_eval false _ _ 3000 0 (by decide) (by decide)]
    norm_num
  rw [validate_single_line _ _ "G1 X300 Y10 F3000".toList (by decide)]
  have herr : lineErrors defaultVSettings 1 "G1 X300 Y10 F3000".toList =
      [.xExceeds 1 300 256] := by
    rw [lineErrors, if_pos hm, hX, hY, hZ, hF]
    norm_num [defaultVSettings]
  have hwarn : lineWarnings defaultVSettings 1 "G1 X300 Y10 F3000".toList =
      [] := by
    rw [lineWarnings, if_pos hm, hZ, hF]
    have hcmd : commandAt "G1 X300 Y10 F3000".toList = some "G1".toList := by
      decide
    rw [hcmd]
    norm_num [defaultVSettings, knownCommands]
  rw [herr, hwarn,
    if_neg (by decide : ¬ hasWordToken "G28" "G1 X300 Y10 F3000".toList = true),
    if_neg (by decide : ¬ hasWordToken "G90" "G1 X300 Y10 F3000".toList = true)]
  rfl

theorem validate_doc2 :
    validate "G1 X100 Y100 F50".toList defaultVSettings =
      { valid := true, errors := [],
        warnings := [.feedLow 1 50, .missingG28, .missingG90] } := by
  have hm : isMotionLine "G1 X100 Y100 F50".toList = true := by decide
  have hX : findParam 'X' true "G1 X100 Y100 F50".toList = some 100 := by
    rw [findParam, show findParamGo 'X' true "G1 X100 Y100 F50".toList =
      some (false, ['1', '0', '0'], []) from by decide, Option.map_some',
      parseFloatParts_eval false _ _ 100 0 (by decide) (by decide)]
    norm_num
  have hY : findParam 'Y' true "G1 X100 Y100 F50".toList = some 100 := by
    rw [findParam, show findParamGo 'Y' true "G1 X100 Y100 F50".toList =
      some (false, ['1', '0', '0'], []) from by decide, Option.map_some',
      parseFloatParts_eval false _ _ 100 0 (by decide) (by decide)]
    norm_num
  have hZ : findParam 'Z' true "G1 X100 Y100 F50".toList = none := by
    rw [findParam, show findParamGo 'Z' true "G1 X100 Y100 F50".toList =
      none from by decide, Option.map_none']
  have hF : findParam 'F' false "G1 X100 Y100 F50".toList = some 50 := by
    rw [findParam, show findParamGo 'F' false "G1 X100 Y100 F50".toList =
      some (false, ['5', '0'], []) from by decide, Option.map_some',
      parseFloatParts_eval false _ _ 50 0 (by decide) (by decide)]
    norm_num
  rw [validate_single_line _ _ "G1 X100 Y100 F50".toList (by decide)]
  have herr : lineErrors defaultVSettings 1 "G1 X100 Y100 F50".toList =
      [] := by
    rw [lineErrors, if_pos hm, hX, hY, hZ, hF]
    norm_num [defaultVSettings]
  have hwarn : lineWarnings defaultVSettings 1 "G1 X100 Y100 F50".toList =
      [.feedLow 1 50] := by
    rw [lineWarnings, if_pos hm, hZ, hF]
    have hcmd : commandAt "G1 X100 Y100 F50".toList = some "G1".toList := by
      decide
    rw [hcmd]
    norm_num [defaultVSettings, knownCommands]
  rw [herr, hwarn,
    if_neg (by decide : ¬ hasWordToken "G28" "G1 X100 Y100 F50".toList = true),
    if_neg (by decide : ¬ hasWordToken "G90" "G1 X100 Y100 F50".toList = true)]
  rfl

theorem validate_doc3 :
    validate "G1 X10 Y10 F-500".toList defaultVSettings =
      { valid := true, errors := [],
        warnings := [.missingG28, .missingG90] } := by
  have hm : isMotionLine "G1 X10 Y10 F-500".toList = true := by decide
  have hX : findParam 'X' true "G1 X10 Y10 F-500".toList = some 10 := by
    rw [findParam, show findParamGo 'X' true "G1 X10 Y10 F-500".toList =
      some (false, ['1', '0'], []) from by decide, Option.map_some',
      parseFloatParts_eval false _ _ 10 0 (by decide) (by decide)]
    norm_num
  have hY : findParam 'Y' true "G1 X10 Y10 F-500".toList = some 10 := by
    rw [findParam, show findParamGo 'Y' true "G1 X10 Y10 F-500".toList =
      some (false, ['1', '0'], []) from by decide, Option.map_some',
      parseFloatParts_eval false _ _ 10 0 (by decide) (by decide)]
    norm_num
  have hZ : findParam 'Z' true "G1 X10 Y10 F-500".toList = none := by
    rw [findParam, show findParamGo 'Z' true "G1 X10 Y10 F-500".toList =
      none from by decide, Option.map_none']
  have hF : findParam 'F' false "G1 X10 Y10 F-500".toList = none := by
    rw [findParam, show findParamGo 'F' false "G1 X10 Y10 F-500".toList =
      none from by decide, Option.map_none']
  rw [validate_single_line _ _ "G1 X10 Y10 F-500".toList (by decide)]
  have herr : lineErrors defaultVSettings 1 "G1 X10 Y10 F-500".toList =
      [] := by
    rw [lineErrors, if_pos hm, hX, hY, hZ, hF]
    norm_num [defaultVSettings]
  have hwarn : lineWarnings defaultVSettings 1 "G1 X10 Y10 F-500".toList =
      [] := by
    rw [lineWarnings, if_pos hm, hZ, hF]
    have hcmd : commandAt "G1 X10 Y10 F-500".toList = some "G1".toList := by
      decide
    rw [hcmd]
    norm_num [knownCommands]
  rw [herr, hwarn,
    if_neg (by decide : ¬ hasWordToken "G28" "G1 X10 Y10 F-500".toList = true),
    if_neg (by decide : ¬ hasWordToken "G90" "G1 X10 Y10 F-500".toList = true)]
  rfl

end GCodeValidator

namespace GCodeValidator

/-- C4: "validate marks a document invalid exactly when at least one error
exists, where errors are: X or Y negative or exceeding bed width/height, Z
negative, or feed rate <= 0, while Z above maxZ and feed rate above
maxFeedRate or below 100 produce warnings only; in particular the line
`G1 X300 Y10 F3000` against bedWidth=256 produces exactly one error and the
document is invalid, and `G1 X100 Y100 F50` produces exactly one warning
for that line and the document remains valid if no errors exist elsewhere."
The first conjunct is validity ⇔ no errors; the next two say that the
errors list only ever carries the error kinds (X/Y out of bed, negative Z,
non-positive feed) and the warnings list only warning kinds; the rest
evaluates the two boundary documents. -/
theorem validate_invalid_iff_errors :
    (∀ (gcode : List Char) (st : VSettings),
      ((validate gcode st).valid = true ↔ (validate gcode st).errors = []) ∧
      (∀ e ∈ (validate gcode st).errors, isErrorKind e = true) ∧
      (∀ w ∈ (validate gcode st).warnings, isErrorKind w = false)) ∧
    (validate "G1 X300 Y10 F3000".toList defaultVSettings).errors =
      [.xExceeds 1 300 256] ∧
    (validate "G1 X300 Y10 F3000".toList defaultVSettings).valid = false ∧
    (validate "G1 X100 Y100 F50".toList defaultVSettings).errors = [] ∧
    (validate "G1 X100 Y100 F50".toList defaultVSettings).valid = true ∧
    (validate "G1 X100 Y100 F50".toList
        defaultVSettings).warnings.filter
      (fun w => issueLine w = some 1) = [.feedLow 1 50] := by
  refine ⟨?_, ?_, ?_, ?_, ?_, ?_⟩
  · intro gcode st
    refine ⟨?_, ?_, ?_⟩
    · simp only [validate, List.isEmpty_eq_true]
    · intro e he
      simp only [validate] at he
      rw [List.mem_flatten] at he
      obtain ⟨l, hl, hel⟩ := he
      rw [List.mem_map] at hl
      obtain ⟨p, -, rfl⟩ := hl
      exact lineErrors_kinds st p.1 p.2 e hel
    · intro w hw
      simp only [validate, List.append_assoc, List.mem_append] at hw
      rcases hw with hw | hw | hw
      · rw [List.mem_flatten] at hw
        obtain ⟨l, hl, hwl⟩ := hw
        rw [List.mem_map] at hl
        obtain ⟨p, -, rfl⟩ := hl
        exact lineWarnings_kinds st p.1 p.2 w hwl
      · split at hw
        · simp at hw
        · simp only [List.mem_singleton] at hw
          subst hw
          rfl
      · split at hw
        · simp at hw
        · simp only [List.mem_singleton] at hw
          subst hw
          rfl
  · rw [validate_doc1]
  · rw [validate_doc1]
  · rw [validate_doc2]
  · rw [validate_doc2]
  · rw [validate_doc2]
    simp [issueLine, List.filter]

/-- C8: "For every movement line whose feed rate is written with a leading
sign (for example `G1 X10 Y10 F-500`), validate extracts no feed-rate
parameter because its pattern F(\d+\.?\d*) matches only unsigned numbers,
so such a line produces neither a feed-rate error nor a warning and the
document can be reported valid despite a negative feed rate." -/
theorem validate_signed_feed_not_extracted :
    findParam 'F' false "G1 X10 Y10 F-500".toList = none ∧
    (validate "G1 X10 Y10 F-500".toList defaultVSettings).errors = [] ∧
    (validate "G1 X10 Y10 F-500".toList defaultVSettings).valid = true ∧
    ∀ w ∈ (validate "G1 X10 Y10 F-500".toList defaultVSettings).warnings,
      isFeedIssue w = false := by
  refine ⟨?_, ?_, ?_, ?_⟩
  · rw [findParam, show findParamGo 'F' false "G1 X10 Y10 F-500".toList =
      none from by decide, Option.map_none']
  · rw [validate_doc3]
  · rw [validate_doc3]
  · rw [validate_doc3]
    intro w hw
    simp only [List.mem_cons, List.mem_singleton] at hw
    rcases hw with rfl | rfl | hw
    · rfl
    · rfl
    · simp at hw

end GCodeValidator

/-! ## SVGManager (src/js/svgManager.js and docs/js/svgManager.js)

Both variants keep a `Map` of drawing records keyed by the generated string
`svg_${nextId++}`, plus a selected id.  The decimal rendering of the counter
(JS template interpolation) is `Nat.repr`; the injectivity proof below (via
a decimal decoder) underpins the freshness of generated ids. -/

/-- Decimal value of one digit character. -/
def digitVal (c : Char) : ℕ := c.toNat - 48

/-- Decimal decoder of a digit string. -/
def decodeDigits (ds : List Char) : ℕ :=
  ds.foldl (fun a c => a * 10 + digitVal c) 0

theorem foldl_digit_init :
    ∀ (l : List Char) (a : ℕ),
      l.foldl (fun a c => a * 10 + digitVal c) a =
        a * 10 ^ l.length + l.foldl (fun a c => a * 10 + digitVal c) 0
  | [], a => by simp
  | c :: l, a => by
    rw [List.foldl_cons, List.foldl_cons, foldl_digit_init l,
      foldl_digit_init l (0 * 10 + digitVal c)]
    simp only [List.length_cons, pow_succ]
    ring

theorem decode_cons_val (c : Char) (ds : List Char) :
    decodeDigits (c :: ds) = digitVal c * 10 ^ ds.length + decodeDigits ds := by
  rw [decodeDigits, List.foldl_cons, foldl_digit_init]
  simp [decodeDigits]

theorem digitVal_digitChar : ∀ d < 10, digitVal (Nat.digitChar d) = d := by
  decide

theorem toDigitsCore_val :
    ∀ (fuel n : ℕ) (ds : List Char), n < fuel →
      decodeDigits (Nat.toDigitsCore 10 fuel n ds) =
        n * 10 ^ ds.length + decodeDigits ds
  | 0, n, _, h => absurd h (Nat.not_lt_zero n)
  | fuel + 1, n, ds, h => by
    simp only [Nat.toDigitsCore]
    by_cases hz : n / 10 = 0
    · rw [if_pos hz, decode_cons_val,
        digitVal_digitChar (n % 10) (Nat.mod_lt n (by norm_num))]
      have hn : n % 10 = n := by omega
      rw [hn]
    · rw [if_neg hz]
      have hlt : n / 10 < fuel := by omega
      rw [toDigitsCore_val fuel (n / 10) _ hlt, decode_cons_val,
        digitVal_digitChar (n % 10) (Nat.mod_lt n (by omega))]
      have hdm : 10 * (n / 10) + n % 10 = n := Nat.div_add_mod n 10
      simp only [List.length_cons, pow_succ]
      conv_rhs => rw [← hdm]
      ring

theorem decode_toDigits (n : ℕ) : decodeDigits (Nat.toDigits 10 n) = n := by
  rw [Nat.toDigits, toDigitsCore_val (n + 1) n [] (Nat.lt_succ_self n)]
  simp [decodeDigits]

theorem natRepr_injective : Function.Injective Nat.repr := by
  intro m n h
  have hdata : Nat.toDigits 10 m = Nat.toDigits 10 n := by
    have hd := congrArg String.data h
    simpa [Nat.repr, List.asString] using hd
  have hv := congrArg decodeDigits hdata
  rwa [decode_toDigits, decode_toDigits] at hv

namespace SVGManager

/-- The bounding-box record produced by `SVGProcessor._calculateBounds`. -/
structure Bounds where
  minX : ℚ
  minY : ℚ
  maxX : ℚ
  maxY : ℚ
  width : ℚ
  height : ℚ
deriving DecidableEq

/-- The `scaleFactor` part of the import metadata
(`{scaleX, scaleY, avgScale}`; the `physical` payload is not consumed by
the manager). -/
structure ScaleFactor where
  scaleX : ℚ
  scaleY : ℚ
  avgScale : ℚ
deriving DecidableEq

/-- One stored drawing record (`metadata` reduced to the only field read
from it, its optional `scaleFactor`). -/
structure SVGObject where
  id : String
  filename : String
  polylines : List (List Point)
  originalBounds : Bounds
  centerViewBox : Point
  translation : Point
  scale : ℚ
  rotation : ℚ
  visible : Bool
  metadata : Option ScaleFactor
deriving DecidableEq

/-- The manager's mutable state (`svgObjects` as an insertion-ordered
association list, the `Map` iteration order of JS). -/
structure ManagerState where
  svgObjects : List (String × SVGObject)
  selectedId : Option String
  bedWidth : ℚ
  bedHeight : ℚ
  nextId : ℕ
deriving DecidableEq

/-- The constructor state: empty map, no selection, 256×256 bed,
counter 1. -/
def initialState : ManagerState :=
  { svgObjects := [], selectedId := none, bedWidth := 256, bedHeight := 256,
    nextId := 1 }

/-- The id string `` `svg_${n}` ``. -/
def mkId (n : ℕ) : String := "svg_" ++ Nat.repr n

theorem mkId_injective : Function.Injective mkId := by
  intro m n h
  have hd := congrArg String.data h
  simp only [mkId, String.data_append] at hd
  exact natRepr_injective (String.ext (List.append_cancel_left hd))

/-- `Map.prototype.set`: replace in place when the key exists, append
otherwise. -/
def mapSet (m : List (String × SVGObject)) (k : String) (v : SVGObject) :
    List (String × SVGObject) :=
  if m.any fun p => p.1 = k then
    m.map fun p => if p.1 = k then (k, v) else p
  else m ++ [(k, v)]

/-- `metadata?.scaleFactor?.avgScale || DEFAULT_SCALE` (the `||` falls back
to 1 also when `avgScale` is 0). -/
def mmScaleOf (metadata : Option ScaleFactor) : ℚ :=
  match metadata with
  | some sf => if sf.avgScale = 0 then 1 else sf.avgScale
  | none => 1

/-- `removeSVG` (identical in both variants): delete the key, and reset the
selection only when it pointed at the removed id. -/
def removeSVG (st : ManagerState) (id : String) : ManagerState :=
  { st with
    svgObjects := st.svgObjects.filter fun p => p.1 ≠ id
    selectedId := if st.selectedId = some id then none else st.selectedId }

/-- `selectSVG` (identical in both variants). -/
def selectSVG (st : ManagerState) (id : String) : ManagerState :=
  { st with selectedId := some id }

/-- `updateTransformation` (identical in both variants): overwrite the
placement fields of the drawing with the given id, if present. -/
def updateTransformation (st : ManagerState) (id : String)
    (translation : Point) (scale rotation : ℚ) : ManagerState :=
  { st with
    svgObjects := st.svgObjects.map fun p =>
      if p.1 = id then
        (p.1, { p.2 with translation := translation, scale := scale,
                         rotation := rotation })
      else p }

end SVGManager

/-! ### The src/js variant (translation anchored so the drawing is centred
on the bed; default rotation 0). -/

namespace SVGManagerSrc

open SVGManager

/-- `addSVG` of src/js/svgManager.js: generate the id, centre the drawing
on the bed via the mm-scaled SVG centre, insert, select, return the id. -/
def addSVG (st : ManagerState) (filename : String)
    (polylines : List (List Point)) (originalBounds : Bounds)
    (initialScale : ℚ) (metadata : Option ScaleFactor) :
    String × ManagerState :=
  let id := mkId st.nextId
  let svgCenterX := (originalBounds.minX + originalBounds.maxX) / 2
  let svgCenterY := (originalBounds.minY + originalBounds.maxY) / 2
  let mmScale := mmScaleOf metadata
  let svgCenterXMM := svgCenterX * mmScale
  let svgCenterYMM := svgCenterY * mmScale
  let initialX := st.bedWidth * (1 / 2) - svgCenterXMM * initialScale
  let initialY := st.bedHeight * (1 / 2) - svgCenterYMM * initialScale
  let obj : SVGObject :=
    { id := id, filename := filename, polylines := polylines,
      originalBounds := originalBounds,
      centerViewBox := (svgCenterX, svgCenterY),
      translation := (initialX, initialY), scale := initialScale,
      rotation := 0, visible := true, metadata := metadata }
  (id, { st with svgObjects := mapSet st.svgObjects id obj,
                 selectedId := some id, nextId := st.nextId + 1 })

/-- One externally triggered operation on the manager. -/
inductive MOp
  | add (filename : String) (polylines : List (List Point)) (bounds : Bounds)
      (scale : ℚ) (metadata : Option ScaleFactor)
  | remove (id : String)
  | select (id : String)

/-- One operation step, returning the id `addSVG` hands back (if any). -/
def step (st : ManagerState) : MOp → ManagerState × Option String
  | .add f p b sc m =>
    let r := addSVG st f p b sc m
    (r.2, some r.1)
  | .remove id => (removeSVG st id, none)
  | .select id => (selectSVG st id, none)

/-- Run a sequence of operations, collecting every id returned by
`addSVG` in order. -/
def runOps : ManagerState → List MOp → ManagerState × List String
  | st, [] => (st, [])
  | st, op :: rest =>
    let r := step st op
    let rr := runOps r.1 rest
    (rr.1, (match r.2 with | some id => [id] | none => []) ++ rr.2)

theorem step_nextId_le (st : ManagerState) (op : MOp) :
    st.nextId ≤ (step st op).1.nextId := by
  cases op <;> simp [step, addSVG, removeSVG, selectSVG]

/-- Every id a run returns is `mkId k` for some `k` at or above the
starting counter, and the returned ids are pairwise distinct. -/
theorem runOps_ids (ops : List MOp) :
    ∀ st : ManagerState,
      (∀ id ∈ (runOps st ops).2, ∃ k, st.nextId ≤ k ∧ id = mkId k) ∧
      (runOps st ops).2.Nodup := by
  induction ops with
  | nil => intro st; simp [runOps]
  | cons op rest ih =>
    intro st
    match op with
    | .remove id =>
      have h := ih (step st (.remove id)).1
      have hid : (step st (.remove id)).2 = none := rfl
      refine ⟨fun i hi => ?_, ?_⟩
      · obtain ⟨k, hk, rfl⟩ := h.1 i (by simpa [runOps, hid] using hi)
        exact ⟨k, le_trans (step_nextId_le st _) hk, rfl⟩
      · simpa [runOps, hid] using h.2
    | .select id =>
      have h := ih (step st (.select id)).1
      have hid : (step st (.select id)).2 = none := rfl
      refine ⟨fun i hi => ?_, ?_⟩
      · obtain ⟨k, hk, rfl⟩ := h.1 i (by simpa [runOps, hid] using hi)
        exact ⟨k, le_trans (step_nextId_le st _) hk, rfl⟩
      · simpa [runOps, hid] using h.2
    | .add f p b sc m =>
      have h := ih (step st (.add f p b sc m)).1
      have hnext : (step st (.add f p b sc m)).1.nextId = st.nextId + 1 := by
        simp [step, addSVG]
      have hid : (step st (.add f p b sc m)).2 = some (mkId st.nextId) := by
        simp [step, addSVG]
      constructor
      · intro i hi
        simp only [runOps, hid, List.mem_append, List.mem_singleton] at hi
        rcases hi with rfl | hi
        · exact ⟨st.nextId, le_refl _, rfl⟩
        · obtain ⟨k, hk, rfl⟩ := h.1 i hi
          rw [hnext] at hk
          exact ⟨k, by omega, rfl⟩
      · simp only [runOps, hid]
        refine List.Nodup.cons ?_ h.2
        intro hmem
        obtain ⟨k, hk, heq⟩ := h.1 (mkId st.nextId) hmem
        rw [hnext] at hk
        have := mkId_injective heq
        omega

/-- C10: "In SVGManager, every call to addSVG returns a fresh id distinct
from all previously returned ids and makes the newly added drawing the
selected one; removeSVG of the currently selected id resets the selection
to null, while removing any other id leaves the selection unchanged." -/
theorem addSVG_fresh_and_selection :
    (∀ ops : List MOp, (runOps initialState ops).2.Nodup) ∧
    (∀ (st : ManagerState) (f : String) (p : List (List Point)) (b : Bounds)
        (sc : ℚ) (m : Option ScaleFactor),
      (addSVG st f p b sc m).2.selectedId = some (addSVG st f p b sc m).1) ∧
    (∀ (st : ManagerState) (id : String),
      st.selectedId = some id → (removeSVG st id).selectedId = none) ∧
    (∀ (st : ManagerState) (id : String),
      st.selectedId ≠ some id →
        (removeSVG st id).selectedId = st.selectedId) := by
  refine ⟨fun ops => (runOps_ids ops initialState).2, ?_, ?_, ?_⟩
  · intro st f p b sc m
    simp [addSVG]
  · intro st id h
    simp [removeSVG, h]
  · intro st id h
    simp [removeSVG, h]

/-- Witness for C10's theorem: two adds then removals at a concrete state
with a selected drawing. -/
theorem addSVG_fresh_and_selection_witness :
    (runOps initialState
      [MOp.add "a.svg" [] ⟨0, 0, 1, 1, 1, 1⟩ 1 none,
       MOp.add "b.svg" [] ⟨0, 0, 2, 2, 2, 2⟩ 1 none]).2.Nodup ∧
    (addSVG initialState "a.svg" [] ⟨0, 0, 1, 1, 1, 1⟩ 1 none).2.selectedId =
      some (addSVG initialState "a.svg" [] ⟨0, 0, 1, 1, 1, 1⟩ 1 none).1 ∧
    (removeSVG { initialState with selectedId := some (mkId 1) }
      (mkId 1)).selectedId = none ∧
    (removeSVG { initialState with selectedId := some (mkId 1) }
      (mkId 2)).selectedId =
      ({ initialState with selectedId := some (mkId 1) } :
        ManagerState).selectedId :=
  ⟨addSVG_fresh_and_selection.1 _,
   addSVG_fresh_and_selection.2.1 initialState "a.svg" [] ⟨0, 0, 1, 1, 1, 1⟩
     1 none,
   addSVG_fresh_and_selection.2.2.1 _ (mkId 1) rfl,
   addSVG_fresh_and_selection.2.2.2 _ (mkId 2) (by decide)⟩

end SVGManagerSrc

namespace SVGProcessor

/-- The `case 'rect'` of `_processContent`: a closed 5-point outline. -/
def rectToPolyline (x y w h : ℚ) : List Point :=
  [(x, y), (x + w, y), (x + w, y + h), (x, y + h), (x, y)]

/-- One point of the min/max sweep (`none` models the untouched
`±Infinity` initial values). -/
def boundsFold (acc : Option (ℚ × ℚ × ℚ × ℚ)) (p : Point) :
    Option (ℚ × ℚ × ℚ × ℚ) :=
  match acc with
  | none => some (p.1, p.2, p.1, p.2)
  | some b => some (min b.1 p.1, min b.2.1 p.2, max b.2.2.1 p.1,
      max b.2.2.2 p.2)

/-- `SVGProcessor._calculateBounds` (the `isNaN` point skip cannot fire over
`ℚ`): min/max over all points, falling back to the document extent when no
point exists. -/
def calculateBounds (polylines : List (List Point))
    (svgWidth svgHeight : ℚ) : SVGManager.Bounds :=
  match polylines.flatten.foldl boundsFold none with
  | none =>
    { minX := 0, minY := 0, maxX := svgWidth, maxY := svgHeight,
      width := svgWidth, height := svgHeight }
  | some b =>
    { minX := b.1, minY := b.2.1, maxX := b.2.2.1, maxY := b.2.2.2,
      width := b.2.2.1 - b.1, height := b.2.2.2 - b.2.1 }

end SVGProcessor

/-! ### The docs/js variant (translation anchored at the rotated bounds'
centre; default rotation 90). -/

namespace SVGManagerDocs

open SVGManager

/-- `addSVG` of docs/js/svgManager.js: the initial translation is the bed
centre itself, and the default rotation is 90°. -/
def addSVG (st : ManagerState) (filename : String)
    (polylines : List (List Point)) (originalBounds : Bounds)
    (initialScale : ℚ) (metadata : Option ScaleFactor) :
    String × ManagerState :=
  let id := mkId st.nextId
  let svgCenterX := (originalBounds.minX + originalBounds.maxX) / 2
  let svgCenterY := (originalBounds.minY + originalBounds.maxY) / 2
  let initialX := st.bedWidth * (1 / 2)
  let initialY := st.bedHeight * (1 / 2)
  let obj : SVGObject :=
    { id := id, filename := filename, polylines := polylines,
      originalBounds := originalBounds,
      centerViewBox := (svgCenterX, svgCenterY),
      translation := (initialX, initialY), scale := initialScale,
      rotation := 90, visible := true, metadata := metadata }
  (id, { st with svgObjects := mapSet st.svgObjects id obj,
                 selectedId := some id, nextId := st.nextId + 1 })

/-- `getTransformedPolylines` of docs/js/svgManager.js: scale native points
to mm, apply the user scale, rotate about the scaled centre pivot, then
shift so the rotated bounds' centre lands at `translation`.
`Math.cos(rotation·π/180)` / `Math.sin(...)` are `cosd svg.rotation` /
`sind svg.rotation`; the `none` bounds case (no point at all, `NaN` in JS)
is given centre (0, 0). -/
def getTransformedPolylines (cosd sind : ℚ → ℚ) (svg : SVGObject) :
    List (List Point) :=
  let tx := svg.translation.1
  let ty := svg.translation.2
  let c := cosd svg.rotation
  let s := sind svg.rotation
  let mmScale := mmScaleOf svg.metadata
  let pivotX := svg.centerViewBox.1 * mmScale * svg.scale
  let pivotY := svg.centerViewBox.2 * mmScale * svg.scale
  let transformed := svg.polylines.map fun pl => pl.map fun p =>
    let sx := p.1 * mmScale * svg.scale
    let sy := p.2 * mmScale * svg.scale
    let dx := sx - pivotX
    let dy := sy - pivotY
    (dx * c - dy * s + pivotX, dx * s + dy * c + pivotY)
  let rc : Point :=
    match transformed.flatten.foldl SVGProcessor.boundsFold none with
    | some b => ((b.1 + b.2.2.1) / 2, (b.2.1 + b.2.2.2) / 2)
    | none => (0, 0)
  transformed.map fun pl => pl.map fun p => (p.1 - rc.1 + tx, p.2 - rc.2 + ty)

/-- `getAllPolylines`: concatenated transformed polylines of the visible
drawings, in insertion order. -/
def getAllPolylines (cosd sind : ℚ → ℚ) (st : ManagerState) :
    List (List Point) :=
  (((st.svgObjects.map fun p => p.2).filter fun svg => svg.visible).map
    (getTransformedPolylines cosd sind)).flatten

/-- The end-to-end scenario of C5: import a document whose sole element is
`<rect x="0" y="0" width="100" height="100"/>` with viewBox 0 0 100 100 and
no physical units (so `scaleFactor` is absent and the native units count as
millimetres), place it at translation (128, 128) with scale 1 and
rotation 0, and collect the bed-space polylines. -/
def rectScenarioPolylines (cosd sind acosDeg : ℚ → ℚ) :
    List (List Point) :=
  let rect := SVGProcessor.rectToPolyline 0 0 100 100
  let merged := SVGProcessor.mergeContinuousStrokes acosDeg [rect]
    (1 / 10) 160
  let bounds := SVGProcessor.calculateBounds merged 100 100
  let r := addSVG initialState "rect.svg" merged bounds 1 none
  let st2 := updateTransformation r.2 r.1 (128, 128) 1 0
  getAllPolylines cosd sind st2

end SVGManagerDocs

namespace SVGManagerDocs

/-- C5: "Importing a document containing one rect x=0 y=0 width=100
height=100 with viewBox 0 0 100 100 and no physical units, placed with
translation=[128,128], scale=1, rotation=0, then generated with default
Settings, yields motion code whose drawing moves' X/Y values are all within
[78,178]x[78,178] minus the pen offset — i.e. the placement step shifts
every point so the rotated bounds' center lands exactly at translation."
(The docs placement model anchors translation at the rotated bounds'
centre; with the default zero pen offset the emitted coordinates are the
bed-space values themselves.) -/
theorem rect_scenario_centered (cosd sind acosDeg : ℚ → ℚ)
    (hc : cosd 0 = 1) (hs : sind 0 = 0)
    (headerLines footerLines : List String) :
    rectScenarioPolylines cosd sind acosDeg =
      [[(78, 78), (178, 78), (178, 178), (78, 178), (78, 78)]] ∧
    ∀ line ∈ GCodeGenerator.generate
        (rectScenarioPolylines cosd sind acosDeg)
        GCodeGenerator.defaultSettings headerLines footerLines,
      ∀ x y f, line = GCodeGenerator.GLine.draw x y f →
        78 ≤ x ∧ x ≤ 178 ∧ 78 ≤ y ∧ y ≤ 178 := by
  have hpoly : rectScenarioPolylines cosd sind acosDeg =
      [[(78, 78), (178, 78), (178, 178), (78, 178), (78, 78)]] := by
    norm_num [rectScenarioPolylines, SVGProcessor.rectToPolyline,
      SVGProcessor.mergeContinuousStrokes, SVGProcessor.calculateBounds,
      SVGProcessor.boundsFold, addSVG, SVGManager.initialState,
      SVGManager.mkId, SVGManager.mapSet, SVGManager.mmScaleOf,
      SVGManager.updateTransformation, getAllPolylines,
      getTransformedPolylines, min_def, max_def, hc, hs]
  refine ⟨hpoly, ?_⟩
  rw [hpoly]
  intro line hline x y f hdraw
  subst hdraw
  norm_num [GCodeGenerator.generate, GCodeGenerator.generateBody,
    GCodeGenerator.defaultSettings, List.enum] at hline
  rcases hline with ⟨s, -, h⟩ | h | h | h | h | h | h | h | h | h | h |
    ⟨s, -, h⟩ <;> simp_all <;> norm_num

/-- Witness for C5's theorem at concrete trigonometric functions and
template line lists. -/
theorem rect_scenario_centered_witness :
    rectScenarioPolylines (fun d => if d = 0 then 1 else 0) (fun _ => 0)
        (fun _ => 0) =
      [[(78, 78), (178, 78), (178, 178), (78, 178), (78, 78)]] ∧
    ∀ line ∈ GCodeGenerator.generate
        (rectScenarioPolylines (fun d => if d = 0 then 1 else 0)
          (fun _ => 0) (fun _ => 0))
        GCodeGenerator.defaultSettings ["; header"] ["; footer"],
      ∀ x y f, line = GCodeGenerator.GLine.draw x y f →
        78 ≤ x ∧ x ≤ 178 ∧ 78 ≤ y ∧ y ≤ 178 :=
  rect_scenario_centered (fun d => if d = 0 then 1 else 0) (fun _ => 0)
    (fun _ => 0) (by norm_num) rfl ["; header"] ["; footer"]

end SVGManagerDocs
